import Mathlib

/-!
# Verification of the Poisson-disc sampling engine (`PoissonDisc.cpp` / `PoissonDisc.h`)

Shallow embedding of `PoissonDisc::GeneratePoints` and its helpers.

Modelling conventions, chosen to mirror the C++ source exactly:

* `vector2di` becomes `Point` (a pair of `ℤ`); `dimension2du` becomes
  `Dimension2du` (a pair of `ℕ`, matching the unsigned fields).
* The acceleration grid's cell size is computed in the source as the float
  `minimumDistance / sqrt(2)` (line 45).  Floating point and `sqrt` are not
  exactly representable, so the embedding takes the cell size as an exact
  rational `cn / cd` given by two integer parameters `cn, cd > 0`; every
  theorem that depends on the cell-size invariant ("cell diagonal =
  minimum distance", spec §3) states the needed relation between `cn / cd`
  and `minimumDistance` as an explicit integer hypothesis.
* `PointToGridTile` divides a coordinate by the cell size and truncates
  toward zero (implicit int cast); with cell size `cn / cd` this is exactly
  `Int.tdiv (x * cd) cn`.
* `ceil(mapDimensions.Width / pointGridCellSize)` is exactly
  `-Int.fdiv (-(Width * cd)) cn`.
* irrlicht's `vector2di::getDistanceFrom` computes `(s32)sqrt((f64)(dx*dx+dy*dy))`,
  i.e. the integer square root truncated toward zero; the embedding uses a
  structurally recursive integer square root `isqrt` with that exact
  characterisation.
* The random source `CustomRandom` and the trigonometric candidate
  computation are code of this repository that is not available under
  `src/`; they are modelled from the spec (see the doc comments on
  `GenerateRandomPointAroundPoint` and `initState`): the engine consumes a
  stream `ℕ → ℤ × ℤ` of integer draws, one pair per random event, and the
  spec's contracts on those draws appear as hypotheses of the theorems.
* The `std::vector`-of-`std::vector` grid storage is modelled as a total
  function `ℤ → ℤ → Point` indexed exactly as the source indexes it
  (`grid[tile.X][tile.Y]`).  The *allocated* shape of the storage
  (`pointGridHeight` rows of length `pointGridWidth`, lines 57-64) is
  modelled separately by `accessWithinAllocation`, which is what the
  out-of-bounds analysis (claim C10) is about.
-/

namespace PoissonDisc

/-- `irr::core::vector2di`: an integer 2D point. -/
structure Point where
  X : ℤ
  Y : ℤ
deriving DecidableEq, Repr

/-- `irr::core::dimension2du`: unsigned width/height. -/
structure Dimension2du where
  Width : ℕ
  Height : ℕ
deriving DecidableEq, Repr

/-- `vector2di(0)`. -/
def origin : Point := ⟨0, 0⟩

/-- The reserved sentinel `vector2di(-1, -1)` marking an empty grid cell
(source lines 60-63). -/
def sentinel : Point := ⟨-1, -1⟩

/-- `MapSection::Shape` (PoissonDisc.h lines 42-46). -/
inductive Shape where
  | eRectangle : Shape
  | eEllipse : Shape
deriving DecidableEq, Repr

/-- `PoissonDisc::MapSection` (PoissonDisc.h lines 40-51). -/
structure MapSection where
  shape : Shape
  centerTile : Point
  dimensions : Dimension2du
deriving DecidableEq, Repr

/-- Squared Euclidean distance between two points. -/
def distSq (a b : Point) : ℤ := (a.X - b.X) ^ 2 + (a.Y - b.Y) ^ 2

/-- One step of a bitwise integer square root: try to set bit `i` of the
accumulator while keeping its square at most `n`. -/
def isqrtGo (n : ℕ) : ℕ → ℕ → ℕ
  | 0, acc => acc
  | i + 1, acc =>
    let cand := acc + 2 ^ i
    if cand * cand ≤ n then isqrtGo n i cand else isqrtGo n i acc

/-- Truncated integer square root (structurally recursive so that concrete
runs evaluate in the kernel); for `n < 2 ^ 128` this is `⌊√n⌋`. -/
def isqrt (n : ℕ) : ℕ := isqrtGo n 64 0

/-- irrlicht `vector2di::getDistanceFrom`: Euclidean distance computed in
`f64` and truncated to `s32`, i.e. the floor of the real square root of
the squared distance. -/
def getDistanceFrom (a b : Point) : ℤ := (isqrt (distSq a b).toNat : ℤ)

/-- `PoissonDisc::InsideRectangle` (source lines 219-225). -/
def InsideRectangle (point offset : Point) (dims : Dimension2du) : Bool :=
  decide (point.X ≥ offset.X) && decide (point.X < offset.X + (dims.Width : ℤ)) &&
  decide (point.Y ≥ offset.Y) && decide (point.Y < offset.Y + (dims.Height : ℤ))

/-- `PoissonDisc::PointToGridTile` (source lines 174-183): coordinate
divided by the cell size `cn / cd`, truncated toward zero by the implicit
int cast (`Int.tdiv` is truncation toward zero, exactly C++ `int` division). -/
def PointToGridTile (point : Point) (cn cd : ℤ) : Point :=
  ⟨Int.tdiv (point.X * cd) cn, Int.tdiv (point.Y * cd) cn⟩

/-- Width of the acceleration grid in cells:
`int pointGridWidth = ceil(mapDimensions.Width / pointGridCellSize)`
(source line 47), with cell size `cn / cd`. -/
def pointGridWidthCells (mapDimensions : Dimension2du) (cn cd : ℤ) : ℤ :=
  -Int.fdiv (-((mapDimensions.Width : ℤ) * cd)) cn

/-- Height of the acceleration grid in cells (source line 48). -/
def pointGridHeightCells (mapDimensions : Dimension2du) (cn cd : ℤ) : ℤ :=
  -Int.fdiv (-((mapDimensions.Height : ℤ) * cd)) cn

/-- `PoissonDisc::PointGrid2D` (PoissonDisc.h lines 80-84).  The storage is
modelled as a total function indexed the way the source indexes it,
`grid[tile.X][tile.Y]`; `dimensions` is the `dimension2du` the source
stores (grid width and height in cells). -/
structure PointGrid2D where
  grid : ℤ → ℤ → Point
  dimensions : Dimension2du

/-- The single grid-cell write `pointGrid.grid[gridTile.X][gridTile.Y] = p`
(source lines 85, 105, 138). -/
def writePoint (g : PointGrid2D) (cn cd : ℤ) (p : Point) : PointGrid2D :=
  let gridTile := PointToGridTile p cn cd
  { g with grid := fun x y => if x = gridTile.X ∧ y = gridTile.Y then p else g.grid x y }

/-- `PoissonDisc::GetPointsAroundTile` (source lines 277-323): scan the
5×5 block of tiles around `centerTile` (tile numbers 1..23, skipping the
corner numbers 4 and 20; numbers 0 and 24 are outside the loop), skip
tiles outside the grid dimensions, and collect the stored points. -/
def GetPointsAroundTile (centerTile : Point) (pointGrid : PointGrid2D) : List Point :=
  (List.range' 1 23).filterMap fun tileNumber =>
    if tileNumber = 4 ∨ tileNumber = 20 then none
    else
      let tile : Point := ⟨centerTile.X - 2 + ((tileNumber % 5 : ℕ) : ℤ),
                           centerTile.Y - 2 + ((tileNumber / 5 : ℕ) : ℤ)⟩
      if InsideRectangle tile origin pointGrid.dimensions then
        some (pointGrid.grid tile.X tile.Y)
      else none

/-- `PoissonDisc::InNeighborhood` (source lines 238-267): true iff some
non-sentinel point in the scanned neighborhood lies at truncated Euclidean
distance `< minimumDistance` from `centerPoint`. -/
def InNeighborhood (centerPoint : Point) (minimumDistance : ℤ)
    (pointGrid : PointGrid2D) (cn cd : ℤ) : Bool :=
  let centerTile := PointToGridTile centerPoint cn cd
  (GetPointsAroundTile centerTile pointGrid).any fun otherPoint =>
    if otherPoint = sentinel then false
    else decide (getDistanceFrom otherPoint centerPoint < minimumDistance)

/-- Top-left offset of a section, derived from its center and dimensions
(source lines 368-372); the halving is unsigned integer division. -/
def sectionOffset (sec : MapSection) : Point :=
  ⟨sec.centerTile.X - ((sec.dimensions.Width / 2 : ℕ) : ℤ),
   sec.centerTile.Y - ((sec.dimensions.Height / 2 : ℕ) : ℤ)⟩

/-- `PoissonDisc::InsideSection` (source lines 362-387): rectangle
containment for `eRectangle`; for `eEllipse` the source prints a
"not yet supported" message and returns `false` (the print is an I/O
side effect with no bearing on the result). -/
def InsideSection (point : Point) (sec : MapSection) : Bool :=
  match sec.shape with
  | Shape.eRectangle => InsideRectangle point (sectionOffset sec) sec.dimensions
  | Shape.eEllipse => false

/-- `PoissonDisc::ExcludeSection` (source lines 332-351): erase from the
list every point inside the section, preserving order. -/
def ExcludeSection : List Point → MapSection → List Point
  | [], _ => []
  | p :: rest, sec =>
    if InsideSection p sec then ExcludeSection rest sec
    else p :: ExcludeSection rest sec

/-- Modelled from the spec: `PoissonDisc::GenerateRandomPointAroundPoint`
(source lines 194-209) calls the missing `CustomRandom::Range` twice and
uses `cos`/`sin` from the math library to place a candidate at a random
angle and a radial distance in `[minimumDistance, 2*minimumDistance)`
around `point`, truncating each coordinate to `int`.  The external random
draws and trigonometry, composed with the truncating casts, are summarised
by the integer displacement pair the random stream yields for this call;
spec properties of the draw (e.g. the radial range) appear as hypotheses
on the stream where a theorem needs them. -/
def GenerateRandomPointAroundPoint (point : Point) (offset : ℤ × ℤ) : Point :=
  ⟨point.X + offset.1, point.Y + offset.2⟩

/-- `PoissonDisc::MAX_INT` (PoissonDisc.h line 86). -/
def MAX_INT : ℤ := 2147483647

/-- `POINTS_PER_LOOP` (source line 12). -/
def POINTS_PER_LOOP : ℕ := 30

/-- C++ logical negation applied to an `int` (`!maxNumberOfPoints` in
source line 148): `0` becomes `1` and anything else becomes `0`. -/
def cppNot (x : ℤ) : ℤ := if x = 0 then 1 else 0

/-- The fixed arguments of one `GeneratePoints` call, plus the modelled
random stream: one `ℤ × ℤ` pair per random event. -/
structure GenParams where
  minimumDistance : ℤ
  mapDimensions : Dimension2du
  maxNumberOfPoints : ℤ
  stream : ℕ → ℤ × ℤ
  cn : ℤ
  cd : ℤ

/-- The mutable local state of a `GeneratePoints` call: the process queue
(front = head), the output list, the acceleration grid, the accepted-point
counter `numberOfPoints`, and the index of the next unconsumed random draw. -/
structure GenState where
  processQueue : List Point
  outputList : List Point
  pointGrid : PointGrid2D
  numberOfPoints : ℤ
  rix : ℕ

/-- Acceptance of a candidate (source lines 130-140): push to the process
queue and output list, write the grid cell, increment the counter. -/
def acceptPoint (P : GenParams) (newPoint : Point) (st : GenState) : GenState :=
  { st with
    processQueue := st.processQueue ++ [newPoint]
    outputList := st.outputList ++ [newPoint]
    pointGrid := writePoint st.pointGrid P.cn P.cd newPoint
    numberOfPoints := st.numberOfPoints + 1 }

/-- The inner candidate loop (source lines 121-146): up to `n` candidate
generations around `currentPoint`; each draws one random pair, and an
accepted candidate in capped mode (`maxNumberOfPoints < MAX_INT`) breaks
out of the loop. -/
def attemptPoints (P : GenParams) (currentPoint : Point) : ℕ → GenState → GenState
  | 0, st => st
  | i + 1, st =>
    let newPoint := GenerateRandomPointAroundPoint currentPoint (P.stream st.rix)
    let st1 : GenState := { st with rix := st.rix + 1 }
    if InsideRectangle newPoint origin P.mapDimensions &&
        !InNeighborhood newPoint P.minimumDistance st1.pointGrid P.cn P.cd then
      let st2 := acceptPoint P newPoint st1
      if P.maxNumberOfPoints < MAX_INT then st2
      else attemptPoints P currentPoint i st2
    else attemptPoints P currentPoint i st1

/-- One iteration of the outer while loop (source lines 115-153): read the
front of the queue, run the candidate loop, then pop the front if
`!maxNumberOfPoints < MAX_INT` — the guard exactly as written in the
source (`!` binds before `<`). -/
def generationStep (P : GenParams) (st : GenState) : GenState :=
  let currentPoint := st.processQueue.headD sentinel
  let st1 := attemptPoints P currentPoint POINTS_PER_LOOP st
  if cppNot P.maxNumberOfPoints < MAX_INT then
    { st1 with processQueue := st1.processQueue.tail }
  else st1

/-- The outer while loop (source line 115), with an explicit fuel:
iterate while the queue is non-empty and the counter is below the cap.
`GeneratePoints` runs it with fuel `GENERATION_FUEL`, proved sufficient
for the loop condition to be false at exit (claim C8). -/
def generationLoop (P : GenParams) : ℕ → GenState → GenState
  | 0, st => st
  | fuel + 1, st =>
    if st.processQueue ≠ [] ∧ st.numberOfPoints < P.maxNumberOfPoints then
      generationLoop P fuel (generationStep P st)
    else st

/-- The empty acceleration grid with its `dimension2du` (source lines
46-64): all cells sentinel. -/
def initialGrid (mapDimensions : Dimension2du) (cn cd : ℤ) : PointGrid2D :=
  { grid := fun _ _ => sentinel
    dimensions := ⟨(pointGridWidthCells mapDimensions cn cd).toNat,
                   (pointGridHeightCells mapDimensions cn cd).toNat⟩ }

/-- Initial state (source lines 66-110).  With no existing points, a first
point is synthesized at random (lines 71-86) — modelled from the spec:
the two missing `CustomRandom::Range(0.4*dim, 0.6*dim)` calls composed
with the truncating int casts are summarised by the integer pair the
stream yields at index 0; the spec's range contract on those draws appears
as a hypothesis where a theorem needs it.  The first point goes to queue,
output list and grid.  With existing points, every seed is pushed to the
queue and written to the grid, but not to the output list (lines 87-107). -/
def initState (P : GenParams) (existingPoints : List Point) : GenState :=
  if existingPoints = [] then
    let firstPoint : Point := ⟨(P.stream 0).1, (P.stream 0).2⟩
    { processQueue := [firstPoint]
      outputList := [firstPoint]
      pointGrid := writePoint (initialGrid P.mapDimensions P.cn P.cd) P.cn P.cd firstPoint
      numberOfPoints := 0
      rix := 1 }
  else
    { processQueue := existingPoints
      outputList := []
      pointGrid := existingPoints.foldl (fun g p => writePoint g P.cn P.cd p)
        (initialGrid P.mapDimensions P.cn P.cd)
      numberOfPoints := 0
      rix := 0 }

/-- Fuel sufficient for the generation loop to drain (proved in C8):
initial queue length, plus one cell-fill per grid cell, plus slack. -/
def GENERATION_FUEL (mapDimensions : Dimension2du) (existingPoints : List Point)
    (cn cd : ℤ) : ℕ :=
  existingPoints.length + 1 +
    (pointGridWidthCells mapDimensions cn cd).toNat *
      (pointGridHeightCells mapDimensions cn cd).toNat + 1

/-- `PoissonDisc::GeneratePoints` (source lines 30-164): initialise, run
the generation loop, then remove the points of each excluded section from
the output list, in order. -/
def GeneratePoints (minimumDistance : ℤ) (mapDimensions : Dimension2du)
    (excludedSections : List MapSection) (existingPoints : List Point)
    (maxNumberOfPoints : ℤ) (stream : ℕ → ℤ × ℤ) (cn cd : ℤ) : List Point :=
  let P : GenParams :=
    ⟨minimumDistance, mapDimensions, maxNumberOfPoints, stream, cn, cd⟩
  let finalState := generationLoop P
    (GENERATION_FUEL mapDimensions existingPoints cn cd) (initState P existingPoints)
  excludedSections.foldl (fun points sec => ExcludeSection points sec)
    finalState.outputList

/-- The allocated storage of the acceleration grid (source lines 56-64):
`pointGridHeight` rows are allocated, each of length `pointGridWidth`.
An access `grid[tile.X][tile.Y]` is within the allocation iff the row
index `tile.X` is a valid row and the column index `tile.Y` a valid
column of that allocation. -/
def accessWithinAllocation (mapDimensions : Dimension2du) (cn cd : ℤ)
    (tile : Point) : Prop :=
  0 ≤ tile.X ∧ tile.X < pointGridHeightCells mapDimensions cn cd ∧
  0 ≤ tile.Y ∧ tile.Y < pointGridWidthCells mapDimensions cn cd

instance (mapDimensions : Dimension2du) (cn cd : ℤ) (tile : Point) :
    Decidable (accessWithinAllocation mapDimensions cn cd tile) := by
  unfold accessWithinAllocation; infer_instance

/-! ## Basic arithmetic lemmas -/

theorem isqrtGo_sq_le (n : ℕ) : ∀ i acc, acc * acc ≤ n →
    isqrtGo n i acc * isqrtGo n i acc ≤ n := by
  intro i
  induction i with
  | zero => intro acc h; simpa [isqrtGo] using h
  | succ i ih =>
    intro acc h
    rw [isqrtGo]
    by_cases hc : (acc + 2 ^ i) * (acc + 2 ^ i) ≤ n
    · simpa [hc] using ih (acc + 2 ^ i) hc
    · simpa [hc] using ih acc h

theorem isqrt_sq_le (n : ℕ) : isqrt n * isqrt n ≤ n :=
  isqrtGo_sq_le n 64 0 (by simp)

theorem distSq_nonneg (a b : Point) : 0 ≤ distSq a b := by
  unfold distSq; positivity

theorem distSq_comm (a b : Point) : distSq a b = distSq b a := by
  unfold distSq; ring

theorem distSq_self (a : Point) : distSq a a = 0 := by
  unfold distSq; ring

/-- Direction of the truncated-square-root comparison that the neighborhood
rejection argument needs: squared distance below `m ^ 2` forces the
truncated Euclidean distance below `m`. -/
theorem getDistanceFrom_lt (a b : Point) (m : ℤ) (hm : 0 ≤ m)
    (h : distSq a b < m ^ 2) : getDistanceFrom a b < m := by
  unfold getDistanceFrom
  by_contra hc
  push_neg at hc
  have hsq := isqrt_sq_le (distSq a b).toNat
  have hd0 : 0 ≤ distSq a b := distSq_nonneg a b
  have hsqZ : (isqrt (distSq a b).toNat : ℤ) * (isqrt (distSq a b).toNat : ℤ) ≤
      distSq a b := by
    calc (isqrt (distSq a b).toNat : ℤ) * (isqrt (distSq a b).toNat : ℤ)
        = ((isqrt (distSq a b).toNat * isqrt (distSq a b).toNat : ℕ) : ℤ) := by push_cast; ring
      _ ≤ ((distSq a b).toNat : ℤ) := by exact_mod_cast hsq
      _ = distSq a b := Int.toNat_of_nonneg hd0
  nlinarith

theorem inBounds_ne_sentinel (p : Point) (dims : Dimension2du)
    (h : InsideRectangle p origin dims = true) : p ≠ sentinel := by
  simp only [InsideRectangle, origin, Bool.and_eq_true, decide_eq_true_iff] at h
  intro hs
  rw [hs] at h
  simp [sentinel] at h

theorem InsideRectangle_iff (p o : Point) (dims : Dimension2du) :
    InsideRectangle p o dims = true ↔
      o.X ≤ p.X ∧ p.X < o.X + (dims.Width : ℤ) ∧
      o.Y ≤ p.Y ∧ p.Y < o.Y + (dims.Height : ℤ) := by
  simp only [InsideRectangle, Bool.and_eq_true, decide_eq_true_iff, ge_iff_le]
  tauto

/-- Characterisation of truncating division for a non-negative dividend and
a positive divisor (the tile computation only meets this case for points
with non-negative coordinates). -/
theorem tdiv_char (a b : ℤ) (ha : 0 ≤ a) (hb : 0 < b) :
    b * a.tdiv b ≤ a ∧ a < b * (a.tdiv b + 1) := by
  rw [Int.tdiv_eq_ediv ha (le_of_lt hb)]
  have hmod := Int.ediv_add_emod a b
  have h1 : 0 ≤ a % b := Int.emod_nonneg a (ne_of_gt hb)
  have h2 : a % b < b := Int.emod_lt_of_pos a hb
  constructor <;> nlinarith

/-- Characterisation of the grid cell-count value
`-Int.fdiv (-(d * cd)) cn = ⌈d * cd / cn⌉`. -/
theorem ceilCells_char (d : ℕ) (cn cd : ℤ) (hcn : 0 < cn) :
    cn * (-Int.fdiv (-((d : ℤ) * cd)) cn - 1) < (d : ℤ) * cd ∧
    (d : ℤ) * cd ≤ cn * -Int.fdiv (-((d : ℤ) * cd)) cn := by
  set a : ℤ := -((d : ℤ) * cd) with hadef
  rw [Int.fdiv_eq_ediv a (le_of_lt hcn)]
  have hmod := Int.ediv_add_emod a cn
  have h1 : 0 ≤ a % cn := Int.emod_nonneg a (ne_of_gt hcn)
  have h2 : a % cn < cn := Int.emod_lt_of_pos a hcn
  constructor <;> nlinarith

/-! ## Tile geometry -/

section TileGeometry

variable {cn cd : ℤ}

/-- An in-bounds coordinate lands on a cell index inside the computed grid
dimension. -/
theorem tileCoord_mem (hcn : 0 < cn) (hcd : 0 < cd) (x : ℤ) (d : ℕ)
    (hx : 0 ≤ x) (hxd : x < (d : ℤ)) :
    0 ≤ (x * cd).tdiv cn ∧ (x * cd).tdiv cn < -Int.fdiv (-((d : ℤ) * cd)) cn := by
  have hx0 : 0 ≤ x * cd := by positivity
  have hc := tdiv_char (x * cd) cn hx0 hcn
  have hceil := ceilCells_char d cn cd hcn
  constructor
  · exact Int.tdiv_nonneg hx0 (le_of_lt hcn)
  · by_contra hlt
    push_neg at hlt
    have : (d : ℤ) * cd ≤ cn * (x * cd).tdiv cn := by nlinarith [hceil.2]
    have : (d : ℤ) * cd ≤ x * cd := le_trans this hc.1
    nlinarith

/-- Two non-negative coordinates on the same cell index differ by less than
the cell size: `|x₁ - x₂| * cd < cn`. -/
theorem same_tile_close (hcn : 0 < cn) (hcd : 0 < cd) (x y : ℤ)
    (hx : 0 ≤ x) (hy : 0 ≤ y) (h : (x * cd).tdiv cn = (y * cd).tdiv cn) :
    (x - y) * cd < cn ∧ -cn < (x - y) * cd := by
  have hcx := tdiv_char (x * cd) cn (by positivity) hcn
  have hcy := tdiv_char (y * cd) cn (by positivity) hcn
  rw [h] at hcx
  constructor <;> nlinarith [hcx.1, hcx.2, hcy.1, hcy.2]

/-- Coordinates whose cell indices differ by at least `j` are more than
`(j-1)` cell sizes apart. -/
theorem tile_gap (hcn : 0 < cn) (hcd : 0 < cd) (x y : ℤ)
    (hx : 0 ≤ x) (hy : 0 ≤ y) (j : ℤ)
    (h : (y * cd).tdiv cn + j ≤ (x * cd).tdiv cn) :
    (j - 1) * cn < (x - y) * cd := by
  have hcx := tdiv_char (x * cd) cn (by positivity) hcn
  have hcy := tdiv_char (y * cd) cn (by positivity) hcn
  nlinarith [hcx.1, hcx.2, hcy.1, hcy.2]

/-- An integer gap larger than one cell size is at least `⌊cn/cd⌋ + 1`. -/
theorem gap_ge_floor_succ (hcn : 0 < cn) (hcd : 0 < cd) (v : ℤ)
    (h : cn < v * cd) : Int.fdiv cn cd + 1 ≤ v := by
  rw [Int.fdiv_eq_ediv cn (le_of_lt hcd)]
  have hmod := Int.ediv_add_emod cn cd
  have h1 : 0 ≤ cn % cd := Int.emod_nonneg cn (ne_of_gt hcd)
  have h2 : cn % cd < cd := Int.emod_lt_of_pos cn hcd
  by_contra hc
  push_neg at hc
  have : v ≤ cn / cd := by omega
  nlinarith

end TileGeometry

/-! ## Neighborhood-scan soundness -/

/-- A grid value stored at a tile inside the grid dimensions and within the
scan window of `centerTile` (offset in `[-2,2]²`, not one of the four
excluded corners) is produced by `GetPointsAroundTile`. -/
theorem mem_GetPointsAroundTile (centerTile : Point) (g : PointGrid2D)
    (t : Point) (hin : InsideRectangle t origin g.dimensions = true)
    (dx dy : ℤ) (hdx1 : -2 ≤ dx) (hdx2 : dx ≤ 2) (hdy1 : -2 ≤ dy) (hdy2 : dy ≤ 2)
    (hcorner : ¬((dx = -2 ∨ dx = 2) ∧ (dy = -2 ∨ dy = 2)))
    (htx : t.X = centerTile.X + dx) (hty : t.Y = centerTile.Y + dy) :
    g.grid t.X t.Y ∈ GetPointsAroundTile centerTile g := by
  unfold GetPointsAroundTile
  set nZ : ℤ := (dy + 2) * 5 + (dx + 2) with hnZ
  refine List.mem_filterMap.mpr ⟨nZ.toNat, ?_, ?_⟩
  · rw [List.mem_range'_1]
    omega
  · have h4 : ¬(nZ.toNat = 4 ∨ nZ.toNat = 20) := by omega
    rw [if_neg h4]
    have hx5 : ((nZ.toNat % 5 : ℕ) : ℤ) = dx + 2 := by omega
    have hy5 : ((nZ.toNat / 5 : ℕ) : ℤ) = dy + 2 := by omega
    have hxx : centerTile.X - 2 + ((nZ.toNat % 5 : ℕ) : ℤ) = t.X := by omega
    have hyy : centerTile.Y - 2 + ((nZ.toNat / 5 : ℕ) : ℤ) = t.Y := by omega
    have htile : (⟨centerTile.X - 2 + ((nZ.toNat % 5 : ℕ) : ℤ),
        centerTile.Y - 2 + ((nZ.toNat / 5 : ℕ) : ℤ)⟩ : Point) = t := by
      rw [hxx, hyy]
    rw [htile]
    simp [hin]

/-- The cell counts of the acceleration grid are non-negative. -/
theorem widthCells_nonneg (dims : Dimension2du) (cn cd : ℤ) (hcn : 0 < cn)
    (hcd : 0 < cd) : 0 ≤ pointGridWidthCells dims cn cd := by
  have h := (ceilCells_char dims.Width cn cd hcn).2
  unfold pointGridWidthCells
  nlinarith [Int.ofNat_nonneg dims.Width]

theorem heightCells_nonneg (dims : Dimension2du) (cn cd : ℤ) (hcn : 0 < cn)
    (hcd : 0 < cd) : 0 ≤ pointGridHeightCells dims cn cd := by
  have h := (ceilCells_char dims.Height cn cd hcn).2
  unfold pointGridHeightCells
  nlinarith [Int.ofNat_nonneg dims.Height]

/-- The tile of a point inside the map bounds is inside the grid dimensions. -/
theorem tile_inside_grid (dims : Dimension2du) (cn cd : ℤ) (hcn : 0 < cn)
    (hcd : 0 < cd) (g : PointGrid2D)
    (hdims : g.dimensions = ⟨(pointGridWidthCells dims cn cd).toNat,
                             (pointGridHeightCells dims cn cd).toNat⟩)
    (q : Point) (hq : InsideRectangle q origin dims = true) :
    InsideRectangle (PointToGridTile q cn cd) origin g.dimensions = true := by
  rw [InsideRectangle_iff] at hq
  simp only [origin] at hq
  have hx := tileCoord_mem hcn hcd q.X dims.Width (by omega) (by omega)
  have hy := tileCoord_mem hcn hcd q.Y dims.Height (by omega) (by omega)
  have hW := widthCells_nonneg dims cn cd hcn hcd
  have hH := heightCells_nonneg dims cn cd hcn hcd
  rw [hdims, InsideRectangle_iff]
  simp only [origin, PointToGridTile, pointGridWidthCells, pointGridHeightCells]
  unfold pointGridWidthCells at hW
  unfold pointGridHeightCells at hH
  omega

/-- If the neighborhood check returned `false`, no scanned non-sentinel
point is within truncated distance `< m` of the candidate. -/
theorem InNeighborhood_false (p : Point) (m : ℤ) (g : PointGrid2D) (cn cd : ℤ)
    (h : InNeighborhood p m g cn cd = false)
    (o : Point) (ho : o ∈ GetPointsAroundTile (PointToGridTile p cn cd) g)
    (hos : o ≠ sentinel) : ¬ (getDistanceFrom o p < m) := by
  intro hlt
  have htrue : InNeighborhood p m g cn cd = true := by
    unfold InNeighborhood
    refine List.any_eq_true.mpr ⟨o, ho, ?_⟩
    rw [if_neg hos]
    simpa using hlt
  rw [h] at htrue
  exact Bool.false_ne_true htrue

set_option maxHeartbeats 1600000 in
/-- Core soundness of the 5×5 neighborhood scan: if `InNeighborhood`
returns `false` for an in-bounds candidate `p`, then every point `q` that
lies inside the map bounds and is stored in the grid at its own tile is at
squared distance at least `minimumDistance ^ 2` from `p`.  This is exactly
the guarantee the cell-size invariant (`cn / cd` cell diagonal equal to
the minimum distance, stated by the hypotheses `h1`, `h2`, `h3`) makes the
windowed scan establish. -/
theorem scan_sound
    (m cn cd : ℤ) (dims : Dimension2du) (g : PointGrid2D)
    (hm : 1 ≤ m) (hcn : 0 < cn) (hcd : 0 < cd)
    (h2 : m ^ 2 ≤ 2 * (Int.fdiv cn cd + 1) ^ 2)
    (h3 : m * cd ≤ 2 * cn)
    (hdims : g.dimensions = ⟨(pointGridWidthCells dims cn cd).toNat,
                             (pointGridHeightCells dims cn cd).toNat⟩)
    (p : Point) (hp : InsideRectangle p origin dims = true)
    (hscan : InNeighborhood p m g cn cd = false)
    (q : Point) (hq : InsideRectangle q origin dims = true)
    (hreg : g.grid (PointToGridTile q cn cd).X (PointToGridTile q cn cd).Y = q) :
    m ^ 2 ≤ distSq p q := by
  by_contra hclose
  push_neg at hclose
  have hqs := inBounds_ne_sentinel q dims hq
  have htq_in := tile_inside_grid dims cn cd hcn hcd g hdims q hq
  have hpb := (InsideRectangle_iff p origin dims).mp hp
  have hqb := (InsideRectangle_iff q origin dims).mp hq
  simp only [origin] at hpb hqb
  have hpx0 : 0 ≤ p.X := hpb.1
  have hpy0 : 0 ≤ p.Y := hpb.2.2.1
  have hqx0 : 0 ≤ q.X := hqb.1
  have hqy0 : 0 ≤ q.Y := hqb.2.2.1
  have hdxsq : (q.X - p.X) ^ 2 ≤ distSq p q := by
    unfold distSq; nlinarith [sq_nonneg (p.Y - q.Y)]
  have hdysq : (q.Y - p.Y) ^ 2 ≤ distSq p q := by
    unfold distSq; nlinarith [sq_nonneg (p.X - q.X)]
  set tpx := (p.X * cd).tdiv cn with htpx
  set tpy := (p.Y * cd).tdiv cn with htpy
  set tqx := (q.X * cd).tdiv cn with htqx
  set tqy := (q.Y * cd).tdiv cn with htqy
  -- a coordinate whose tiles differ by at least 3 contradicts closeness
  have hfar3 : ∀ x y : ℤ, 0 ≤ x → 0 ≤ y →
      (y * cd).tdiv cn + 3 ≤ (x * cd).tdiv cn → (x - y) ^ 2 ≤ distSq p q → False := by
    intro x y hx hy hgap hsq
    have hg := tile_gap hcn hcd x y hx hy 3 hgap
    have hmlt : m * cd < (x - y) * cd := by linarith
    have hmxy : m < x - y := lt_of_mul_lt_mul_right hmlt (le_of_lt hcd)
    have hprod : 0 < (x - y - m) * (x - y + m) :=
      mul_pos (by linarith) (by linarith)
    nlinarith [hprod, hsq, hclose]
  -- a coordinate whose tiles differ by exactly 2 is at least fdiv cn cd + 1 away
  have hcorn : ∀ x y : ℤ, 0 ≤ x → 0 ≤ y →
      ((y * cd).tdiv cn + 2 = (x * cd).tdiv cn ∨ (x * cd).tdiv cn + 2 = (y * cd).tdiv cn) →
      (Int.fdiv cn cd + 1) ^ 2 ≤ (x - y) ^ 2 := by
    intro x y hx hy hor
    have hk0 : 0 ≤ Int.fdiv cn cd := Int.fdiv_nonneg (le_of_lt hcn) (le_of_lt hcd)
    rcases hor with hgap | hgap
    · have hg := tile_gap hcn hcd x y hx hy 2 (by omega)
      have hle : Int.fdiv cn cd + 1 ≤ x - y :=
        gap_ge_floor_succ hcn hcd (x - y) (by linarith)
      have hsq := mul_self_le_mul_self (show (0:ℤ) ≤ Int.fdiv cn cd + 1 by omega) hle
      nlinarith [hsq]
    · have hg := tile_gap hcn hcd y x hy hx 2 (by omega)
      have hle : Int.fdiv cn cd + 1 ≤ y - x :=
        gap_ge_floor_succ hcn hcd (y - x) (by linarith)
      have hsq := mul_self_le_mul_self (show (0:ℤ) ≤ Int.fdiv cn cd + 1 by omega) hle
      nlinarith [hsq]
  have hwx1 : tqx - tpx ≤ 2 := by
    by_contra hgt; push_neg at hgt
    exact hfar3 q.X p.X hqx0 hpx0 (by omega) hdxsq
  have hwx2 : -2 ≤ tqx - tpx := by
    by_contra hgt; push_neg at hgt
    exact hfar3 p.X q.X hpx0 hqx0 (by omega)
      (by rw [show (p.X - q.X) ^ 2 = (q.X - p.X) ^ 2 by ring]; exact hdxsq)
  have hwy1 : tqy - tpy ≤ 2 := by
    by_contra hgt; push_neg at hgt
    exact hfar3 q.Y p.Y hqy0 hpy0 (by omega) hdysq
  have hwy2 : -2 ≤ tqy - tpy := by
    by_contra hgt; push_neg at hgt
    exact hfar3 p.Y q.Y hpy0 hqy0 (by omega)
      (by rw [show (p.Y - q.Y) ^ 2 = (q.Y - p.Y) ^ 2 by ring]; exact hdysq)
  by_cases hcornerCase :
      (tqx - tpx = -2 ∨ tqx - tpx = 2) ∧ (tqy - tpy = -2 ∨ tqy - tpy = 2)
  · -- the four excluded corner cells are provably at distance ≥ m
    have hcx : (Int.fdiv cn cd + 1) ^ 2 ≤ (q.X - p.X) ^ 2 :=
      hcorn q.X p.X hqx0 hpx0 (by omega)
    have hcy : (Int.fdiv cn cd + 1) ^ 2 ≤ (q.Y - p.Y) ^ 2 :=
      hcorn q.Y p.Y hqy0 hpy0 (by omega)
    have hd : distSq p q = (q.X - p.X) ^ 2 + (q.Y - p.Y) ^ 2 := by
      unfold distSq; ring
    have : m ^ 2 ≤ distSq p q := by
      rw [hd]; linarith [hcx, hcy, h2]
    omega
  · -- q's cell is scanned, so the scan would have rejected p
    have hmem := mem_GetPointsAroundTile (PointToGridTile p cn cd) g
      (PointToGridTile q cn cd) htq_in (tqx - tpx) (tqy - tpy)
      hwx2 hwx1 hwy2 hwy1 hcornerCase
      (by simp only [PointToGridTile]; omega)
      (by simp only [PointToGridTile]; omega)
    rw [hreg] at hmem
    have hnot := InNeighborhood_false p m g cn cd hscan q hmem hqs
    exact hnot (getDistanceFrom_lt q p m (by omega) (by rw [distSq_comm]; exact hclose))

/-- Two in-bounds points on the same grid tile are closer than the minimum
distance (this is where the cell-diagonal bound `h1` enters: any two
points of one cell are within the cell diagonal, which is at most the
minimum distance). -/
theorem same_cell_close
    (m cn cd : ℤ) (dims : Dimension2du)
    (hcn : 0 < cn) (hcd : 0 < cd)
    (h1 : 2 * cn ^ 2 ≤ m ^ 2 * cd ^ 2)
    (p q : Point) (hp : InsideRectangle p origin dims = true)
    (hq : InsideRectangle q origin dims = true)
    (ht : PointToGridTile p cn cd = PointToGridTile q cn cd) :
    distSq p q < m ^ 2 := by
  have hpb := (InsideRectangle_iff p origin dims).mp hp
  have hqb := (InsideRectangle_iff q origin dims).mp hq
  simp only [origin] at hpb hqb
  have htx : (p.X * cd).tdiv cn = (q.X * cd).tdiv cn := congrArg Point.X ht
  have hty : (p.Y * cd).tdiv cn = (q.Y * cd).tdiv cn := congrArg Point.Y ht
  have hx := same_tile_close hcn hcd p.X q.X hpb.1 hqb.1 htx
  have hy := same_tile_close hcn hcd p.Y q.Y hpb.2.2.1 hqb.2.2.1 hty
  have hx2 : (p.X - q.X) ^ 2 * cd ^ 2 < cn ^ 2 := by
    have hprod := mul_pos (show (0:ℤ) < cn - (p.X - q.X) * cd by linarith [hx.1])
      (show (0:ℤ) < cn + (p.X - q.X) * cd by linarith [hx.2])
    nlinarith [hprod]
  have hy2 : (p.Y - q.Y) ^ 2 * cd ^ 2 < cn ^ 2 := by
    have hprod := mul_pos (show (0:ℤ) < cn - (p.Y - q.Y) * cd by linarith [hy.1])
      (show (0:ℤ) < cn + (p.Y - q.Y) * cd by linarith [hy.2])
    nlinarith [hprod]
  have hcd2 : (0:ℤ) < cd ^ 2 := by positivity
  have hfin : distSq p q * cd ^ 2 < m ^ 2 * cd ^ 2 := by
    unfold distSq
    nlinarith [hx2, hy2, h1]
  exact lt_of_mul_lt_mul_right hfin (le_of_lt hcd2)

/-! ## The generation-state invariant -/

/-- The `dimension2du` the grid carries during a run. -/
def gridDims (P : GenParams) : Dimension2du :=
  ⟨(pointGridWidthCells P.mapDimensions P.cn P.cd).toNat,
   (pointGridHeightCells P.mapDimensions P.cn P.cd).toNat⟩

/-- The cell-size invariant of the run (spec §3: the cell diagonal equals
the minimum distance), rendered for the exact rational cell size
`cn / cd` together with positivity of all quantities involved. -/
structure Hyps (P : GenParams) : Prop where
  hm : 1 ≤ P.minimumDistance
  hcn : 0 < P.cn
  hcd : 0 < P.cd
  h1 : 2 * P.cn ^ 2 ≤ P.minimumDistance ^ 2 * P.cd ^ 2
  h2 : P.minimumDistance ^ 2 ≤ 2 * (Int.fdiv P.cn P.cd + 1) ^ 2
  h3 : P.minimumDistance * P.cd ≤ 2 * P.cn

/-- The run invariant: grid dimensions are fixed; every output point is in
bounds, registered in the grid at its own tile, and at squared distance at
least `minimumDistance²` from every other output point; every non-sentinel
grid cell holds an in-bounds point stored at its own tile; every seed's
cell stays occupied; no output point is a seed. -/
structure Inv (P : GenParams) (seeds : List Point) (st : GenState) : Prop where
  dims_eq : st.pointGrid.dimensions = gridDims P
  out_bounds : ∀ p ∈ st.outputList, InsideRectangle p origin P.mapDimensions = true
  out_reg : ∀ p ∈ st.outputList,
    st.pointGrid.grid (PointToGridTile p P.cn P.cd).X (PointToGridTile p P.cn P.cd).Y = p
  out_pair : ∀ p ∈ st.outputList, ∀ q ∈ st.outputList, p ≠ q →
    P.minimumDistance ^ 2 ≤ distSq p q
  grid_ok : ∀ x y, st.pointGrid.grid x y = sentinel ∨
    (InsideRectangle (st.pointGrid.grid x y) origin P.mapDimensions = true ∧
     PointToGridTile (st.pointGrid.grid x y) P.cn P.cd = ⟨x, y⟩)
  seed_occ : ∀ s ∈ seeds,
    st.pointGrid.grid (PointToGridTile s P.cn P.cd).X (PointToGridTile s P.cn P.cd).Y ≠ sentinel
  out_notin : ∀ p ∈ st.outputList, p ∉ seeds

theorem writePoint_dims (g : PointGrid2D) (cn cd : ℤ) (p : Point) :
    (writePoint g cn cd p).dimensions = g.dimensions := rfl

theorem writePoint_self (g : PointGrid2D) (cn cd : ℤ) (p : Point) :
    (writePoint g cn cd p).grid (PointToGridTile p cn cd).X
      (PointToGridTile p cn cd).Y = p := by
  simp [writePoint]

theorem writePoint_other (g : PointGrid2D) (cn cd : ℤ) (p : Point) (x y : ℤ)
    (h : ¬(x = (PointToGridTile p cn cd).X ∧ y = (PointToGridTile p cn cd).Y)) :
    (writePoint g cn cd p).grid x y = g.grid x y := by
  simp only [writePoint]
  rw [if_neg h]

theorem point_ne_of_comp {a b : Point} (h : a ≠ b) :
    ¬(a.X = b.X ∧ a.Y = b.Y) := by
  intro ⟨h1, h2⟩
  exact h (by cases a; cases b; simp_all)

/-- The consequences of one candidate acceptance: the invariant is
preserved, and the accepted point is new, far from everything recorded,
and not a seed. -/
theorem Inv_acceptPoint (P : GenParams) (seeds : List Point) (st : GenState)
    (H : Hyps P)
    (I : Inv P seeds st) (np : Point)
    (hbound : InsideRectangle np origin P.mapDimensions = true)
    (hscan : InNeighborhood np P.minimumDistance st.pointGrid P.cn P.cd = false) :
    Inv P seeds (acceptPoint P np st) ∧ np ∉ st.outputList ∧
    (∀ q ∈ st.outputList, P.minimumDistance ^ 2 ≤ distSq np q) := by
  obtain ⟨hm, hcn, hcd, h1, h2, h3⟩ := H
  have hdims := I.dims_eq
  -- every registered output point is far from np
  have key : ∀ q ∈ st.outputList, P.minimumDistance ^ 2 ≤ distSq np q := by
    intro q hq
    exact scan_sound P.minimumDistance P.cn P.cd P.mapDimensions st.pointGrid
      hm hcn hcd h2 h3 hdims np hbound hscan q (I.out_bounds q hq) (I.out_reg q hq)
  have hnpnotout : np ∉ st.outputList := by
    intro hmem
    have := key np hmem
    rw [distSq_self] at this
    nlinarith
  -- np cannot coincide with a seed: the seed's cell is occupied by an
  -- in-bounds point of the same cell, which the scan would have seen
  have hnpseed : np ∉ seeds := by
    intro hs
    have hocc := I.seed_occ np hs
    rcases I.grid_ok (PointToGridTile np P.cn P.cd).X (PointToGridTile np P.cn P.cd).Y with
      hsent | ⟨hob, hot⟩
    · exact hocc hsent
    · set o := st.pointGrid.grid (PointToGridTile np P.cn P.cd).X
        (PointToGridTile np P.cn P.cd).Y with hodef
      have hclose : distSq np o < P.minimumDistance ^ 2 :=
        same_cell_close P.minimumDistance P.cn P.cd P.mapDimensions hcn hcd h1
          np o hbound hob (by rw [hot])
      have hto_in : InsideRectangle (PointToGridTile o P.cn P.cd) origin
          st.pointGrid.dimensions = true :=
        tile_inside_grid P.mapDimensions P.cn P.cd hcn hcd st.pointGrid hdims o hob
      have hmem := mem_GetPointsAroundTile (PointToGridTile np P.cn P.cd)
        st.pointGrid (PointToGridTile o P.cn P.cd) hto_in 0 0
        (by omega) (by omega) (by omega) (by omega) (by simp)
        (by rw [hot]; ring) (by rw [hot]; ring)
      have hval : st.pointGrid.grid (PointToGridTile o P.cn P.cd).X
          (PointToGridTile o P.cn P.cd).Y = o := by rw [hot]
      rw [hval] at hmem
      have hnot := InNeighborhood_false np P.minimumDistance st.pointGrid P.cn P.cd
        hscan o hmem (inBounds_ne_sentinel o P.mapDimensions hob)
      exact hnot (getDistanceFrom_lt o np P.minimumDistance (by omega)
        (by rw [distSq_comm]; exact hclose))
  have hnpsent : np ≠ sentinel := inBounds_ne_sentinel np P.mapDimensions hbound
  -- writes at np's tile do not disturb other registered outputs
  have htile_ne : ∀ q ∈ st.outputList,
      PointToGridTile q P.cn P.cd ≠ PointToGridTile np P.cn P.cd := by
    intro q hq hteq
    have hclose := same_cell_close P.minimumDistance P.cn P.cd P.mapDimensions hcn hcd h1
      np q hbound (I.out_bounds q hq) (by rw [hteq])
    have := key q hq
    omega
  refine ⟨⟨?_, ?_, ?_, ?_, ?_, ?_, ?_⟩, hnpnotout, key⟩
  · -- dims_eq
    simpa [acceptPoint, writePoint_dims] using hdims
  · -- out_bounds
    intro p hp
    simp only [acceptPoint, List.mem_append, List.mem_singleton] at hp
    rcases hp with hp | rfl
    · exact I.out_bounds p hp
    · exact hbound
  · -- out_reg
    intro p hp
    simp only [acceptPoint, List.mem_append, List.mem_singleton] at hp
    rcases hp with hp | rfl
    · have hne := point_ne_of_comp (htile_ne p hp)
      show (writePoint st.pointGrid P.cn P.cd np).grid _ _ = p
      rw [writePoint_other _ _ _ _ _ _ hne]
      exact I.out_reg p hp
    · exact writePoint_self st.pointGrid P.cn P.cd p
  · -- out_pair
    intro p hp q hq hpq
    simp only [acceptPoint, List.mem_append, List.mem_singleton] at hp hq
    rcases hp with hp | rfl <;> rcases hq with hq | rfl
    · exact I.out_pair p hp q hq hpq
    · rw [distSq_comm]; exact key p hp
    · exact key q hq
    · exact absurd rfl hpq
  · -- grid_ok
    intro x y
    by_cases hxy : x = (PointToGridTile np P.cn P.cd).X ∧
        y = (PointToGridTile np P.cn P.cd).Y
    · right
      obtain ⟨rfl, rfl⟩ := hxy
      refine ⟨?_, ?_⟩
      · show InsideRectangle ((writePoint st.pointGrid P.cn P.cd np).grid _ _)
          origin P.mapDimensions = true
        rw [writePoint_self]; exact hbound
      · show PointToGridTile ((writePoint st.pointGrid P.cn P.cd np).grid _ _)
          P.cn P.cd = _
        rw [writePoint_self]
    · have heq : (acceptPoint P np st).pointGrid.grid x y = st.pointGrid.grid x y :=
        writePoint_other st.pointGrid P.cn P.cd np x y hxy
      rw [heq]
      exact I.grid_ok x y
  · -- seed_occ
    intro s hs
    by_cases hxy : (PointToGridTile s P.cn P.cd).X = (PointToGridTile np P.cn P.cd).X ∧
        (PointToGridTile s P.cn P.cd).Y = (PointToGridTile np P.cn P.cd).Y
    · show (writePoint st.pointGrid P.cn P.cd np).grid _ _ ≠ sentinel
      rw [hxy.1, hxy.2, writePoint_self]
      exact hnpsent
    · show (writePoint st.pointGrid P.cn P.cd np).grid _ _ ≠ sentinel
      rw [writePoint_other _ _ _ _ _ _ hxy]
      exact I.seed_occ s hs
  · -- out_notin
    intro p hp
    simp only [acceptPoint, List.mem_append, List.mem_singleton] at hp
    rcases hp with hp | rfl
    · exact I.out_notin p hp
    · exact hnpseed

theorem Inv_rix (P : GenParams) (seeds : List Point) (st : GenState) (n : ℕ)
    (I : Inv P seeds st) : Inv P seeds { st with rix := n } :=
  ⟨I.dims_eq, I.out_bounds, I.out_reg, I.out_pair, I.grid_ok, I.seed_occ, I.out_notin⟩

theorem Inv_queue (P : GenParams) (seeds : List Point) (st : GenState) (q : List Point)
    (I : Inv P seeds st) : Inv P seeds { st with processQueue := q } :=
  ⟨I.dims_eq, I.out_bounds, I.out_reg, I.out_pair, I.grid_ok, I.seed_occ, I.out_notin⟩

theorem Inv_attemptPoints (P : GenParams) (seeds : List Point) (H : Hyps P)
    (cur : Point) :
    ∀ (n : ℕ) (st : GenState), Inv P seeds st →
      Inv P seeds (attemptPoints P cur n st) := by
  intro n
  induction n with
  | zero => intro st I; exact I
  | succ i ih =>
    intro st I
    rw [attemptPoints]
    split
    · next hc =>
      rw [Bool.and_eq_true, Bool.not_eq_true'] at hc
      have hacc := Inv_acceptPoint P seeds { st with rix := st.rix + 1 } H
        (Inv_rix P seeds st (st.rix + 1) I)
        (GenerateRandomPointAroundPoint cur (P.stream st.rix)) hc.1 hc.2
      split
      · exact hacc.1
      · exact ih _ hacc.1
    · exact ih _ (Inv_rix P seeds st (st.rix + 1) I)

theorem Inv_generationStep (P : GenParams) (seeds : List Point) (H : Hyps P)
    (st : GenState) (I : Inv P seeds st) : Inv P seeds (generationStep P st) := by
  unfold generationStep
  have hatt := Inv_attemptPoints P seeds H (st.processQueue.headD sentinel)
    POINTS_PER_LOOP st I
  split
  · exact Inv_queue P seeds _ _ hatt
  · exact hatt

theorem Inv_generationLoop (P : GenParams) (seeds : List Point) (H : Hyps P) :
    ∀ (n : ℕ) (st : GenState), Inv P seeds st →
      Inv P seeds (generationLoop P n st) := by
  intro n
  induction n with
  | zero => intro st I; exact I
  | succ k ih =>
    intro st I
    rw [generationLoop]
    split
    · exact ih _ (Inv_generationStep P seeds H st I)
    · exact I

/-! ## Seed loading -/

theorem foldl_write_dims (cn cd : ℤ) :
    ∀ (l : List Point) (g : PointGrid2D),
      (l.foldl (fun g p => writePoint g cn cd p) g).dimensions = g.dimensions := by
  intro l
  induction l with
  | nil => intro g; rfl
  | cons p rest ih => intro g; rw [List.foldl_cons, ih]; rfl

theorem write_grid_ok (dims : Dimension2du) (cn cd : ℤ) (g : PointGrid2D) (p : Point)
    (hp : InsideRectangle p origin dims = true)
    (hg : ∀ x y, g.grid x y = sentinel ∨
      (InsideRectangle (g.grid x y) origin dims = true ∧
       PointToGridTile (g.grid x y) cn cd = ⟨x, y⟩)) :
    ∀ x y, (writePoint g cn cd p).grid x y = sentinel ∨
      (InsideRectangle ((writePoint g cn cd p).grid x y) origin dims = true ∧
       PointToGridTile ((writePoint g cn cd p).grid x y) cn cd = ⟨x, y⟩) := by
  intro x y
  by_cases hxy : x = (PointToGridTile p cn cd).X ∧ y = (PointToGridTile p cn cd).Y
  · obtain ⟨rfl, rfl⟩ := hxy
    right
    rw [writePoint_self]
    exact ⟨hp, rfl⟩
  · rw [writePoint_other g cn cd p x y hxy]
    exact hg x y

theorem foldl_write_grid_ok (dims : Dimension2du) (cn cd : ℤ) :
    ∀ (l : List Point) (g : PointGrid2D),
      (∀ s ∈ l, InsideRectangle s origin dims = true) →
      (∀ x y, g.grid x y = sentinel ∨
        (InsideRectangle (g.grid x y) origin dims = true ∧
         PointToGridTile (g.grid x y) cn cd = ⟨x, y⟩)) →
      ∀ x y, (l.foldl (fun g p => writePoint g cn cd p) g).grid x y = sentinel ∨
        (InsideRectangle ((l.foldl (fun g p => writePoint g cn cd p) g).grid x y)
          origin dims = true ∧
         PointToGridTile ((l.foldl (fun g p => writePoint g cn cd p) g).grid x y)
          cn cd = ⟨x, y⟩) := by
  intro l
  induction l with
  | nil => intro g _ hg; exact hg
  | cons p rest ih =>
    intro g hl hg
    rw [List.foldl_cons]
    exact ih (writePoint g cn cd p)
      (fun s hs => hl s (List.mem_cons_of_mem p hs))
      (write_grid_ok dims cn cd g p (hl p (List.mem_cons_self _ _)) hg)

theorem foldl_write_stable (dims : Dimension2du) (cn cd : ℤ) :
    ∀ (l : List Point) (g : PointGrid2D) (x y : ℤ),
      (∀ s ∈ l, InsideRectangle s origin dims = true) →
      g.grid x y ≠ sentinel →
      (l.foldl (fun g p => writePoint g cn cd p) g).grid x y ≠ sentinel := by
  intro l
  induction l with
  | nil => intro g x y _ hgs; exact hgs
  | cons p rest ih =>
    intro g x y hl hgs
    rw [List.foldl_cons]
    refine ih (writePoint g cn cd p) x y
      (fun s hs => hl s (List.mem_cons_of_mem p hs)) ?_
    by_cases hxy : x = (PointToGridTile p cn cd).X ∧ y = (PointToGridTile p cn cd).Y
    · obtain ⟨rfl, rfl⟩ := hxy
      rw [writePoint_self]
      exact inBounds_ne_sentinel p dims (hl p (List.mem_cons_self _ _))
    · rw [writePoint_other g cn cd p x y hxy]
      exact hgs

theorem foldl_write_occ (dims : Dimension2du) (cn cd : ℤ) :
    ∀ (l : List Point) (g : PointGrid2D) (s : Point), s ∈ l →
      (∀ t ∈ l, InsideRectangle t origin dims = true) →
      (l.foldl (fun g p => writePoint g cn cd p) g).grid
        (PointToGridTile s cn cd).X (PointToGridTile s cn cd).Y ≠ sentinel := by
  intro l
  induction l with
  | nil => intro g s hs; exact absurd hs (List.not_mem_nil s)
  | cons p rest ih =>
    intro g s hs hl
    rw [List.foldl_cons]
    rcases List.mem_cons.mp hs with rfl | hs
    · refine foldl_write_stable dims cn cd rest (writePoint g cn cd s) _ _
        (fun t ht => hl t (List.mem_cons_of_mem s ht)) ?_
      rw [writePoint_self]
      exact inBounds_ne_sentinel s dims (hl s (List.mem_cons_self _ _))
    · exact ih (writePoint g cn cd p) s hs
        (fun t ht => hl t (List.mem_cons_of_mem p ht))

/-- The initial state satisfies the invariant.  With no seeds, the
synthesized first point must be inside the map (this is the spec's
contract on the `Range(0.4·dim, 0.6·dim)` draws). -/
theorem Inv_initState (P : GenParams) (existingPoints : List Point)
    (hseeds : ∀ s ∈ existingPoints, InsideRectangle s origin P.mapDimensions = true)
    (hfirst : existingPoints = [] →
      InsideRectangle ⟨(P.stream 0).1, (P.stream 0).2⟩ origin P.mapDimensions = true) :
    Inv P existingPoints (initState P existingPoints) := by
  unfold initState
  split
  · next hemp =>
    have hfb := hfirst hemp
    refine ⟨rfl, ?_, ?_, ?_, ?_, ?_, ?_⟩
    · intro p hp
      rw [List.mem_singleton] at hp
      subst hp
      exact hfb
    · intro p hp
      rw [List.mem_singleton] at hp
      subst hp
      exact writePoint_self _ P.cn P.cd _
    · intro p hp q hq hpq
      rw [List.mem_singleton] at hp hq
      exact absurd (hp.trans hq.symm) hpq
    · exact write_grid_ok P.mapDimensions P.cn P.cd _ _ hfb (fun x y => Or.inl rfl)
    · intro s hs
      rw [hemp] at hs
      exact absurd hs (List.not_mem_nil s)
    · intro p _ hp
      rw [hemp] at hp
      exact absurd hp (List.not_mem_nil p)
  · refine ⟨?_, ?_, ?_, ?_, ?_, ?_, ?_⟩
    · exact foldl_write_dims P.cn P.cd existingPoints _
    · intro p hp; exact absurd hp (List.not_mem_nil p)
    · intro p hp; exact absurd hp (List.not_mem_nil p)
    · intro p hp; exact absurd hp (List.not_mem_nil p)
    · exact foldl_write_grid_ok P.mapDimensions P.cn P.cd existingPoints _
        hseeds (fun x y => Or.inl rfl)
    · intro s hs
      exact foldl_write_occ P.mapDimensions P.cn P.cd existingPoints _ s hs hseeds
    · intro p hp; exact absurd hp (List.not_mem_nil p)

/-! ## Seed registration (pairwise-far, in-bounds seeds) -/

theorem point_eq_of_comp {a b : Point} (hx : a.X = b.X) (hy : a.Y = b.Y) : a = b := by
  cases a; cases b; simp_all

/-- Additional invariant available when the seeds are pairwise at least the
minimum distance apart: every seed stays registered in its own cell, and
every output point is far from every seed. -/
structure InvFar (P : GenParams) (seeds : List Point) (st : GenState) : Prop where
  seed_reg : ∀ s ∈ seeds, st.pointGrid.grid (PointToGridTile s P.cn P.cd).X
    (PointToGridTile s P.cn P.cd).Y = s
  out_far : ∀ p ∈ st.outputList, ∀ s ∈ seeds, P.minimumDistance ^ 2 ≤ distSq p s

theorem InvFar_acceptPoint (P : GenParams) (seeds : List Point) (st : GenState)
    (H : Hyps P)
    (hseeds : ∀ s ∈ seeds, InsideRectangle s origin P.mapDimensions = true)
    (J : InvFar P seeds st) (np : Point)
    (hbound : InsideRectangle np origin P.mapDimensions = true)
    (hscan : InNeighborhood np P.minimumDistance st.pointGrid P.cn P.cd = false)
    (hdims : st.pointGrid.dimensions = gridDims P) :
    InvFar P seeds (acceptPoint P np st) := by
  obtain ⟨hm, hcn, hcd, h1, h2, h3⟩ := H
  have keyS : ∀ s ∈ seeds, P.minimumDistance ^ 2 ≤ distSq np s := fun s hs =>
    scan_sound P.minimumDistance P.cn P.cd P.mapDimensions st.pointGrid
      hm hcn hcd h2 h3 hdims np hbound hscan s (hseeds s hs) (J.seed_reg s hs)
  constructor
  · intro s hs
    by_cases hxy : (PointToGridTile s P.cn P.cd).X = (PointToGridTile np P.cn P.cd).X ∧
        (PointToGridTile s P.cn P.cd).Y = (PointToGridTile np P.cn P.cd).Y
    · exfalso
      have hteq : PointToGridTile np P.cn P.cd = PointToGridTile s P.cn P.cd :=
        point_eq_of_comp hxy.1.symm hxy.2.symm
      have hclose := same_cell_close P.minimumDistance P.cn P.cd P.mapDimensions
        hcn hcd h1 np s hbound (hseeds s hs) hteq
      have := keyS s hs
      omega
    · show (writePoint st.pointGrid P.cn P.cd np).grid _ _ = s
      rw [writePoint_other _ _ _ _ _ _ hxy]
      exact J.seed_reg s hs
  · intro p hp s hs
    simp only [acceptPoint, List.mem_append, List.mem_singleton] at hp
    rcases hp with hp | rfl
    · exact J.out_far p hp s hs
    · exact keyS s hs

theorem InvFar_rix (P : GenParams) (seeds : List Point) (st : GenState) (n : ℕ)
    (J : InvFar P seeds st) : InvFar P seeds { st with rix := n } :=
  ⟨J.seed_reg, J.out_far⟩

theorem InvFar_queue (P : GenParams) (seeds : List Point) (st : GenState)
    (q : List Point) (J : InvFar P seeds st) :
    InvFar P seeds { st with processQueue := q } :=
  ⟨J.seed_reg, J.out_far⟩

theorem InvFar_attemptPoints (P : GenParams) (seeds : List Point) (H : Hyps P)
    (hseeds : ∀ s ∈ seeds, InsideRectangle s origin P.mapDimensions = true)
    (cur : Point) :
    ∀ (n : ℕ) (st : GenState), Inv P seeds st → InvFar P seeds st →
      InvFar P seeds (attemptPoints P cur n st) := by
  intro n
  induction n with
  | zero => intro st _ J; exact J
  | succ i ih =>
    intro st I J
    rw [attemptPoints]
    split
    · next hc =>
      rw [Bool.and_eq_true, Bool.not_eq_true'] at hc
      have hacc := Inv_acceptPoint P seeds { st with rix := st.rix + 1 } H
        (Inv_rix P seeds st (st.rix + 1) I)
        (GenerateRandomPointAroundPoint cur (P.stream st.rix)) hc.1 hc.2
      have hfacc := InvFar_acceptPoint P seeds { st with rix := st.rix + 1 } H hseeds
        (InvFar_rix P seeds st (st.rix + 1) J)
        (GenerateRandomPointAroundPoint cur (P.stream st.rix)) hc.1 hc.2 I.dims_eq
      split
      · exact hfacc
      · exact ih _ hacc.1 hfacc
    · exact ih _ (Inv_rix P seeds st (st.rix + 1) I) (InvFar_rix P seeds st (st.rix + 1) J)

theorem InvFar_generationStep (P : GenParams) (seeds : List Point) (H : Hyps P)
    (hseeds : ∀ s ∈ seeds, InsideRectangle s origin P.mapDimensions = true)
    (st : GenState) (I : Inv P seeds st) (J : InvFar P seeds st) :
    InvFar P seeds (generationStep P st) := by
  unfold generationStep
  have hatt := InvFar_attemptPoints P seeds H hseeds (st.processQueue.headD sentinel)
    POINTS_PER_LOOP st I J
  split
  · exact InvFar_queue P seeds _ _ hatt
  · exact hatt

theorem InvFar_generationLoop (P : GenParams) (seeds : List Point) (H : Hyps P)
    (hseeds : ∀ s ∈ seeds, InsideRectangle s origin P.mapDimensions = true) :
    ∀ (n : ℕ) (st : GenState), Inv P seeds st → InvFar P seeds st →
      InvFar P seeds (generationLoop P n st) := by
  intro n
  induction n with
  | zero => intro st _ J; exact J
  | succ k ih =>
    intro st I J
    rw [generationLoop]
    split
    · exact ih _ (Inv_generationStep P seeds H st I)
        (InvFar_generationStep P seeds H hseeds st I J)
    · exact J

theorem foldl_write_keep (cn cd : ℤ) :
    ∀ (l : List Point) (g : PointGrid2D) (x y : ℤ),
      (∀ t ∈ l, ¬(x = (PointToGridTile t cn cd).X ∧ y = (PointToGridTile t cn cd).Y)) →
      (l.foldl (fun g p => writePoint g cn cd p) g).grid x y = g.grid x y := by
  intro l
  induction l with
  | nil => intro g x y _; rfl
  | cons p rest ih =>
    intro g x y hl
    rw [List.foldl_cons, ih (writePoint g cn cd p) x y
      (fun t ht => hl t (List.mem_cons_of_mem p ht))]
    exact writePoint_other g cn cd p x y (hl p (List.mem_cons_self _ _))

theorem foldl_write_reg (m cn cd : ℤ) (dims : Dimension2du)
    (hcn : 0 < cn) (hcd : 0 < cd) (h1 : 2 * cn ^ 2 ≤ m ^ 2 * cd ^ 2) :
    ∀ (l : List Point) (g : PointGrid2D),
      (∀ t ∈ l, InsideRectangle t origin dims = true) →
      List.Pairwise (fun a b => m ^ 2 ≤ distSq a b) l →
      ∀ s ∈ l, (l.foldl (fun g p => writePoint g cn cd p) g).grid
        (PointToGridTile s cn cd).X (PointToGridTile s cn cd).Y = s := by
  intro l
  induction l with
  | nil => intro g _ _ s hs; exact absurd hs (List.not_mem_nil s)
  | cons p rest ih =>
    intro g hl hpw s hs
    rw [List.foldl_cons]
    rcases List.mem_cons.mp hs with rfl | hs
    · have hkeep := foldl_write_keep cn cd rest (writePoint g cn cd s)
        (PointToGridTile s cn cd).X (PointToGridTile s cn cd).Y ?_
      · rw [hkeep]
        exact writePoint_self g cn cd s
      · intro t ht hxy
        have hteq : PointToGridTile s cn cd = PointToGridTile t cn cd :=
          point_eq_of_comp hxy.1 hxy.2
        have hclose := same_cell_close m cn cd dims hcn hcd h1 s t
          (hl s (List.mem_cons_self _ _)) (hl t (List.mem_cons_of_mem s ht)) hteq
        have hfar := (List.pairwise_cons.mp hpw).1 t ht
        omega
    · exact ih (writePoint g cn cd p) (fun t ht => hl t (List.mem_cons_of_mem p ht))
        (List.pairwise_cons.mp hpw).2 s hs

theorem InvFar_initState (P : GenParams) (existingPoints : List Point) (H : Hyps P)
    (hseeds : ∀ s ∈ existingPoints, InsideRectangle s origin P.mapDimensions = true)
    (hfar : List.Pairwise (fun a b => P.minimumDistance ^ 2 ≤ distSq a b) existingPoints) :
    InvFar P existingPoints (initState P existingPoints) := by
  unfold initState
  split
  · next hemp =>
    constructor
    · intro s hs; rw [hemp] at hs; exact absurd hs (List.not_mem_nil s)
    · intro p _ s hs; rw [hemp] at hs; exact absurd hs (List.not_mem_nil s)
  · constructor
    · exact fun s hs => foldl_write_reg P.minimumDistance P.cn P.cd P.mapDimensions
        H.hcn H.hcd H.h1 existingPoints _ hseeds hfar s hs
    · intro p hp; exact absurd hp (List.not_mem_nil p)

/-! ## Termination of the generation loop -/

/-- The pop guard `!maxNumberOfPoints < MAX_INT` (source line 148) is true
for every value of `maxNumberOfPoints`: `!` binds before `<` in C++, and
both `0` and `1` are below `MAX_INT`.  The front of the queue is therefore
popped on every iteration of the outer loop, capped mode included. -/
theorem cppNot_lt_MAX_INT (x : ℤ) : cppNot x < MAX_INT := by
  unfold cppNot MAX_INT
  split <;> omega

/-- The in-dimension grid cells still holding the sentinel. -/
def emptyCells (P : GenParams) (st : GenState) : Finset (ℕ × ℕ) :=
  ((Finset.range (pointGridWidthCells P.mapDimensions P.cn P.cd).toNat) ×ˢ
   (Finset.range (pointGridHeightCells P.mapDimensions P.cn P.cd).toNat)).filter
    (fun c => st.pointGrid.grid (c.1 : ℤ) (c.2 : ℤ) = sentinel)

/-- Loop variant: queue length plus the number of empty in-dimension cells.
Each acceptance moves one unit from the second summand to the first, and
each outer iteration pops exactly one queue entry. -/
def loopMeasure (P : GenParams) (st : GenState) : ℕ :=
  st.processQueue.length + (emptyCells P st).card

theorem emptyCells_card_le (P : GenParams) (st : GenState) :
    (emptyCells P st).card ≤
      (pointGridWidthCells P.mapDimensions P.cn P.cd).toNat *
      (pointGridHeightCells P.mapDimensions P.cn P.cd).toNat := by
  refine le_trans (Finset.card_filter_le _ _) ?_
  rw [Finset.card_product, Finset.card_range, Finset.card_range]

/-- An accepted candidate's cell held the sentinel: an occupant would be an
in-bounds point of the same cell, within the minimum distance, and the
scan of the center tile would have rejected the candidate. -/
theorem accepted_cell_sentinel (P : GenParams) (seeds : List Point) (st : GenState)
    (H : Hyps P) (I : Inv P seeds st) (np : Point)
    (hbound : InsideRectangle np origin P.mapDimensions = true)
    (hscan : InNeighborhood np P.minimumDistance st.pointGrid P.cn P.cd = false) :
    st.pointGrid.grid (PointToGridTile np P.cn P.cd).X
      (PointToGridTile np P.cn P.cd).Y = sentinel := by
  obtain ⟨hm, hcn, hcd, h1, h2, h3⟩ := H
  rcases I.grid_ok (PointToGridTile np P.cn P.cd).X (PointToGridTile np P.cn P.cd).Y with
    hsent | ⟨hob, hot⟩
  · exact hsent
  · exfalso
    set o := st.pointGrid.grid (PointToGridTile np P.cn P.cd).X
      (PointToGridTile np P.cn P.cd).Y with hodef
    have hclose : distSq np o < P.minimumDistance ^ 2 :=
      same_cell_close P.minimumDistance P.cn P.cd P.mapDimensions hcn hcd h1
        np o hbound hob (by rw [hot])
    have hto_in : InsideRectangle (PointToGridTile o P.cn P.cd) origin
        st.pointGrid.dimensions = true :=
      tile_inside_grid P.mapDimensions P.cn P.cd hcn hcd st.pointGrid I.dims_eq o hob
    have hmem := mem_GetPointsAroundTile (PointToGridTile np P.cn P.cd)
      st.pointGrid (PointToGridTile o P.cn P.cd) hto_in 0 0
      (by omega) (by omega) (by omega) (by omega) (by simp)
      (by rw [hot]; ring) (by rw [hot]; ring)
    have hval : st.pointGrid.grid (PointToGridTile o P.cn P.cd).X
        (PointToGridTile o P.cn P.cd).Y = o := by rw [hot]
    rw [hval] at hmem
    have hnot := InNeighborhood_false np P.minimumDistance st.pointGrid P.cn P.cd
      hscan o hmem (inBounds_ne_sentinel o P.mapDimensions hob)
    exact hnot (getDistanceFrom_lt o np P.minimumDistance (by omega)
      (by rw [distSq_comm]; exact hclose))

/-- One acceptance fills exactly one empty in-dimension cell. -/
theorem emptyCells_accept (P : GenParams) (seeds : List Point) (st : GenState)
    (H : Hyps P) (I : Inv P seeds st) (np : Point)
    (hbound : InsideRectangle np origin P.mapDimensions = true)
    (hscan : InNeighborhood np P.minimumDistance st.pointGrid P.cn P.cd = false) :
    (emptyCells P (acceptPoint P np st)).card + 1 = (emptyCells P st).card := by
  have hsent := accepted_cell_sentinel P seeds st H I np hbound hscan
  have hnpb := (InsideRectangle_iff np origin P.mapDimensions).mp hbound
  simp only [origin] at hnpb
  have hX := tileCoord_mem H.hcn H.hcd np.X P.mapDimensions.Width hnpb.1 (by omega)
  have hY := tileCoord_mem H.hcn H.hcd np.Y P.mapDimensions.Height hnpb.2.2.1 (by omega)
  have hnps := inBounds_ne_sentinel np P.mapDimensions hbound
  set tX : ℤ := (PointToGridTile np P.cn P.cd).X with htXdef
  set tY : ℤ := (PointToGridTile np P.cn P.cd).Y with htYdef
  have htXb : 0 ≤ tX ∧ tX < pointGridWidthCells P.mapDimensions P.cn P.cd := hX
  have htYb : 0 ≤ tY ∧ tY < pointGridHeightCells P.mapDimensions P.cn P.cd := hY
  have hcmem : (tX.toNat, tY.toNat) ∈ emptyCells P st := by
    refine Finset.mem_filter.mpr ⟨Finset.mem_product.mpr ⟨?_, ?_⟩, ?_⟩
    · rw [Finset.mem_range]; omega
    · rw [Finset.mem_range]; omega
    · show st.pointGrid.grid ((tX.toNat : ℤ)) ((tY.toNat : ℤ)) = sentinel
      rw [Int.toNat_of_nonneg htXb.1, Int.toNat_of_nonneg htYb.1]
      exact hsent
  have hset : emptyCells P (acceptPoint P np st) =
      (emptyCells P st).erase (tX.toNat, tY.toNat) := by
    ext d
    simp only [emptyCells, Finset.mem_filter, Finset.mem_erase, Finset.mem_product,
      Finset.mem_range]
    constructor
    · rintro ⟨⟨hd1, hd2⟩, hval⟩
      by_cases hxy : (d.1 : ℤ) = tX ∧ (d.2 : ℤ) = tY
      · exfalso
        have : (acceptPoint P np st).pointGrid.grid (d.1 : ℤ) (d.2 : ℤ) = np := by
          show (writePoint st.pointGrid P.cn P.cd np).grid _ _ = np
          rw [hxy.1, hxy.2]
          exact writePoint_self st.pointGrid P.cn P.cd np
        rw [this] at hval
        exact hnps hval
      · refine ⟨?_, ⟨hd1, hd2⟩, ?_⟩
        · intro hdc
          apply hxy
          rw [hdc]
          constructor
          · simp [Int.toNat_of_nonneg htXb.1]
          · simp [Int.toNat_of_nonneg htYb.1]
        · have heq : (acceptPoint P np st).pointGrid.grid (d.1 : ℤ) (d.2 : ℤ) =
              st.pointGrid.grid (d.1 : ℤ) (d.2 : ℤ) :=
            writePoint_other st.pointGrid P.cn P.cd np _ _ hxy
          rw [heq] at hval
          exact hval
    · rintro ⟨hdc, ⟨hd1, hd2⟩, hval⟩
      refine ⟨⟨hd1, hd2⟩, ?_⟩
      have hxy : ¬((d.1 : ℤ) = tX ∧ (d.2 : ℤ) = tY) := by
        intro hboth
        apply hdc
        have e1 : d.1 = tX.toNat := by omega
        have e2 : d.2 = tY.toNat := by omega
        calc d = (d.1, d.2) := rfl
          _ = (tX.toNat, tY.toNat) := by rw [e1, e2]
      have heq : (acceptPoint P np st).pointGrid.grid (d.1 : ℤ) (d.2 : ℤ) =
          st.pointGrid.grid (d.1 : ℤ) (d.2 : ℤ) :=
        writePoint_other st.pointGrid P.cn P.cd np _ _ hxy
      rw [heq]
      exact hval
  rw [hset, Finset.card_erase_of_mem hcmem]
  have := Finset.card_pos.mpr ⟨_, hcmem⟩
  omega

theorem loopMeasure_attemptPoints (P : GenParams) (seeds : List Point) (H : Hyps P)
    (cur : Point) :
    ∀ (n : ℕ) (st : GenState), Inv P seeds st →
      loopMeasure P (attemptPoints P cur n st) = loopMeasure P st := by
  intro n
  induction n with
  | zero => intro st _; rfl
  | succ i ih =>
    intro st I
    rw [attemptPoints]
    split
    · next hc =>
      rw [Bool.and_eq_true, Bool.not_eq_true'] at hc
      set st1 : GenState := { st with rix := st.rix + 1 } with hst1
      have I1 : Inv P seeds st1 := Inv_rix P seeds st (st.rix + 1) I
      set np := GenerateRandomPointAroundPoint cur (P.stream st.rix) with hnp
      have hcard := emptyCells_accept P seeds st1 H I1 np hc.1 hc.2
      have hmeas : loopMeasure P (acceptPoint P np st1) = loopMeasure P st := by
        unfold loopMeasure
        have hq : (acceptPoint P np st1).processQueue.length =
            st.processQueue.length + 1 := by
          simp [acceptPoint]
        rw [hq]
        have hc1 : (emptyCells P st1).card = (emptyCells P st).card := rfl
        omega
      have hI2 := (Inv_acceptPoint P seeds st1 H I1 np hc.1 hc.2).1
      split
      · exact hmeas
      · rw [ih _ hI2, hmeas]
    · exact ih _ (Inv_rix P seeds st (st.rix + 1) I)

theorem attemptPoints_queue_ge (P : GenParams) (cur : Point) :
    ∀ (n : ℕ) (st : GenState),
      st.processQueue.length ≤ (attemptPoints P cur n st).processQueue.length := by
  intro n
  induction n with
  | zero => intro st; exact le_rfl
  | succ i ih =>
    intro st
    rw [attemptPoints]
    split
    · split
      · simp [acceptPoint]
      · refine le_trans ?_ (ih _)
        simp [acceptPoint]
    · exact ih { st with rix := st.rix + 1 }

theorem loopMeasure_generationStep (P : GenParams) (seeds : List Point) (H : Hyps P)
    (st : GenState) (I : Inv P seeds st) (hne : st.processQueue ≠ []) :
    loopMeasure P (generationStep P st) + 1 = loopMeasure P st := by
  unfold generationStep
  rw [if_pos (cppNot_lt_MAX_INT P.maxNumberOfPoints)]
  have hmeas := loopMeasure_attemptPoints P seeds H (st.processQueue.headD sentinel)
    POINTS_PER_LOOP st I
  have hq := attemptPoints_queue_ge P (st.processQueue.headD sentinel)
    POINTS_PER_LOOP st
  have hne' : st.processQueue.length ≠ 0 := fun h => hne (List.length_eq_zero.mp h)
  unfold loopMeasure at hmeas ⊢
  have htail : ({ attemptPoints P (st.processQueue.headD sentinel) POINTS_PER_LOOP st
      with processQueue := (attemptPoints P (st.processQueue.headD sentinel)
        POINTS_PER_LOOP st).processQueue.tail } : GenState).processQueue.length =
      (attemptPoints P (st.processQueue.headD sentinel)
        POINTS_PER_LOOP st).processQueue.length - 1 := by
    simp [List.length_tail]
  rw [htail]
  have hcells : (emptyCells P ({ attemptPoints P (st.processQueue.headD sentinel)
      POINTS_PER_LOOP st with processQueue := (attemptPoints P
        (st.processQueue.headD sentinel) POINTS_PER_LOOP st).processQueue.tail }
        : GenState)).card =
      (emptyCells P (attemptPoints P (st.processQueue.headD sentinel)
        POINTS_PER_LOOP st)).card := rfl
  rw [hcells]
  omega

/-- The loop condition of `generationLoop` is false after the run: either
the queue drained or the cap was reached. -/
def loopDone (P : GenParams) (st : GenState) : Prop :=
  st.processQueue = [] ∨ ¬(st.numberOfPoints < P.maxNumberOfPoints)

instance (P : GenParams) (st : GenState) : Decidable (loopDone P st) := by
  unfold loopDone; infer_instance

theorem generationLoop_done (P : GenParams) (seeds : List Point) (H : Hyps P) :
    ∀ (n : ℕ) (st : GenState), Inv P seeds st → loopMeasure P st ≤ n →
      loopDone P (generationLoop P n st) := by
  intro n
  induction n with
  | zero =>
    intro st _ hle
    unfold loopMeasure at hle
    left
    rw [generationLoop]
    exact List.length_eq_zero.mp (by omega)
  | succ k ih =>
    intro st I hle
    rw [generationLoop]
    split
    · next hcond =>
      have hdec := loopMeasure_generationStep P seeds H st I hcond.1
      exact ih (generationStep P st) (Inv_generationStep P seeds H st I) (by omega)
    · next hcond =>
      unfold loopDone
      rcases not_and_or.mp hcond with hq | hc
      · left; exact not_not.mp hq
      · right; exact hc

theorem loopMeasure_initState_le (P : GenParams) (existingPoints : List Point) :
    loopMeasure P (initState P existingPoints) ≤
      GENERATION_FUEL P.mapDimensions existingPoints P.cn P.cd := by
  have hcard := emptyCells_card_le P (initState P existingPoints)
  have hq : (initState P existingPoints).processQueue.length ≤
      existingPoints.length + 1 := by
    unfold initState
    split
    · simp only [List.length_singleton]; omega
    · simp only; omega
  unfold loopMeasure GENERATION_FUEL
  omega

/-! ## ExcludeSection as a filter -/

theorem ExcludeSection_eq_filter (sec : MapSection) :
    ∀ l : List Point, ExcludeSection l sec = l.filter (fun p => !InsideSection p sec) := by
  intro l
  induction l with
  | nil => rfl
  | cons q rest ih =>
    rw [ExcludeSection, ih, List.filter_cons]
    cases hq : InsideSection q sec <;> simp [hq]

theorem mem_ExcludeSection (p : Point) (sec : MapSection) (l : List Point) :
    p ∈ ExcludeSection l sec ↔ p ∈ l ∧ InsideSection p sec = false := by
  rw [ExcludeSection_eq_filter, List.mem_filter]
  simp

theorem mem_excludeFoldl (p : Point) :
    ∀ (secs : List MapSection) (l : List Point),
      p ∈ secs.foldl (fun points sec => ExcludeSection points sec) l →
      p ∈ l ∧ ∀ sec ∈ secs, InsideSection p sec = false := by
  intro secs
  induction secs with
  | nil => intro l h; simpa using h
  | cons s rest ih =>
    intro l h
    rw [List.foldl_cons] at h
    obtain ⟨h1, h2⟩ := ih (ExcludeSection l s) h
    rw [mem_ExcludeSection] at h1
    refine ⟨h1.1, ?_⟩
    intro sec hsec
    rcases List.mem_cons.mp hsec with rfl | hsec
    · exact h1.2
    · exact h2 sec hsec

/-- An ellipse-shaped section removes nothing. -/
theorem ExcludeSection_ellipse (sec : MapSection) (hs : sec.shape = Shape.eEllipse) :
    ∀ l : List Point, ExcludeSection l sec = l := by
  intro l
  induction l with
  | nil => rfl
  | cons q rest ih => rw [ExcludeSection, ih]; simp [InsideSection, hs]

/-! ## The synthesized first point -/

theorem fdiv_mul_le (a b : ℤ) (hb : 0 < b) : b * a.fdiv b ≤ a := by
  rw [Int.fdiv_eq_ediv a (le_of_lt hb)]
  have h := Int.ediv_add_emod a b
  have h2 := Int.emod_nonneg a (ne_of_gt hb)
  linarith

/-- Spec contract of the first-point synthesis (`Range(0.4·dim, 0.6·dim)`
truncated to `int`): the drawn coordinate lies between `⌊0.4·dim⌋` and
`⌊0.6·dim⌋`; for a positive dimension it is therefore inside `[0, dim)`. -/
theorem firstPoint_coord_bounds (w fx : ℤ) (hw : 0 < w)
    (hlo : Int.fdiv (2 * w) 5 ≤ fx) (hhi : fx ≤ Int.fdiv (3 * w) 5) :
    0 ≤ fx ∧ fx < w := by
  have h0 : 0 ≤ Int.fdiv (2 * w) 5 := Int.fdiv_nonneg (by omega) (by omega)
  have h5 : (5:ℤ) * Int.fdiv (3 * w) 5 ≤ 3 * w := fdiv_mul_le (3 * w) 5 (by omega)
  omega

/-! ## Output points stay in bounds (no cell-size hypotheses needed) -/

/-- All output points lie inside the map rectangle. -/
def OutBounds (P : GenParams) (st : GenState) : Prop :=
  ∀ p ∈ st.outputList, InsideRectangle p origin P.mapDimensions = true

theorem OutBounds_attemptPoints (P : GenParams) (cur : Point) :
    ∀ (n : ℕ) (st : GenState), OutBounds P st →
      OutBounds P (attemptPoints P cur n st) := by
  intro n
  induction n with
  | zero => intro st hB; exact hB
  | succ i ih =>
    intro st hB
    rw [attemptPoints]
    split
    · next hc =>
      rw [Bool.and_eq_true] at hc
      have hB2 : OutBounds P (acceptPoint P
          (GenerateRandomPointAroundPoint cur (P.stream st.rix))
          { st with rix := st.rix + 1 }) := by
        intro p hp
        simp only [acceptPoint, List.mem_append, List.mem_singleton] at hp
        rcases hp with hp | rfl
        · exact hB p hp
        · exact hc.1
      split
      · exact hB2
      · exact ih _ hB2
    · exact ih _ hB

theorem OutBounds_generationStep (P : GenParams) (st : GenState)
    (hB : OutBounds P st) : OutBounds P (generationStep P st) := by
  unfold generationStep
  have hatt := OutBounds_attemptPoints P (st.processQueue.headD sentinel)
    POINTS_PER_LOOP st hB
  split
  · exact hatt
  · exact hatt

theorem OutBounds_generationLoop (P : GenParams) :
    ∀ (n : ℕ) (st : GenState), OutBounds P st →
      OutBounds P (generationLoop P n st) := by
  intro n
  induction n with
  | zero => intro st hB; exact hB
  | succ k ih =>
    intro st hB
    rw [generationLoop]
    split
    · exact ih _ (OutBounds_generationStep P st hB)
    · exact hB

theorem OutBounds_initState (P : GenParams) (existingPoints : List Point)
    (hfirst : existingPoints = [] →
      InsideRectangle ⟨(P.stream 0).1, (P.stream 0).2⟩ origin P.mapDimensions = true) :
    OutBounds P (initState P existingPoints) := by
  unfold initState
  split
  · next hemp =>
    intro p hp
    rw [List.mem_singleton] at hp
    subst hp
    exact hfirst hemp
  · intro p hp
    exact absurd hp (List.not_mem_nil p)

/-! ## Claims -/

/-- **C1**: for every call to `GeneratePoints` — under the cell-size
invariant of spec §3 (`cn / cd` is the positive cell size, its diagonal
equal to the minimum distance, hypotheses `h1`–`h3`), with the seed points
inside the map and, when no seeds are given, the synthesized first point
obeying the spec's `Range(0.4·dim, 0.6·dim)` contract — every pair of
distinct returned points is at least `minimumDistance` apart: the squared
Euclidean distance is at least `minimumDistance ^ 2`.  This is the soft
minimum that the 5×5-cell neighborhood scan of `InNeighborhood`
establishes. -/
theorem C1_pairwise_min_distance
    (minimumDistance : ℤ) (mapDimensions : Dimension2du)
    (excludedSections : List MapSection) (existingPoints : List Point)
    (maxNumberOfPoints : ℤ) (stream : ℕ → ℤ × ℤ) (cn cd : ℤ)
    (hm : 1 ≤ minimumDistance) (hcn : 0 < cn) (hcd : 0 < cd)
    (h1 : 2 * cn ^ 2 ≤ minimumDistance ^ 2 * cd ^ 2)
    (h2 : minimumDistance ^ 2 ≤ 2 * (Int.fdiv cn cd + 1) ^ 2)
    (h3 : minimumDistance * cd ≤ 2 * cn)
    (hseeds : ∀ s ∈ existingPoints, InsideRectangle s origin mapDimensions = true)
    (hfirst : existingPoints = [] →
      InsideRectangle ⟨(stream 0).1, (stream 0).2⟩ origin mapDimensions = true)
    (a b : Point)
    (ha : a ∈ GeneratePoints minimumDistance mapDimensions excludedSections
      existingPoints maxNumberOfPoints stream cn cd)
    (hb : b ∈ GeneratePoints minimumDistance mapDimensions excludedSections
      existingPoints maxNumberOfPoints stream cn cd)
    (hab : a ≠ b) :
    minimumDistance ^ 2 ≤ distSq a b := by
  set P : GenParams :=
    ⟨minimumDistance, mapDimensions, maxNumberOfPoints, stream, cn, cd⟩ with hP
  have H : Hyps P := ⟨hm, hcn, hcd, h1, h2, h3⟩
  have I := Inv_generationLoop P existingPoints H
    (GENERATION_FUEL mapDimensions existingPoints cn cd)
    (initState P existingPoints)
    (Inv_initState P existingPoints hseeds hfirst)
  have ha2 : a ∈ excludedSections.foldl (fun points sec => ExcludeSection points sec)
      (generationLoop P (GENERATION_FUEL mapDimensions existingPoints cn cd)
        (initState P existingPoints)).outputList := ha
  have hb2 : b ∈ excludedSections.foldl (fun points sec => ExcludeSection points sec)
      (generationLoop P (GENERATION_FUEL mapDimensions existingPoints cn cd)
        (initState P existingPoints)).outputList := hb
  exact I.out_pair a (mem_excludeFoldl a excludedSections _ ha2).1
    b (mem_excludeFoldl b excludedSections _ hb2).1 hab

/-- Witness for C1: a concrete uncapped run around the seed `(10,10)`
accepts `(20,10)` and `(0,10)`; their squared distance is `400 ≥ 10²`.
All hypotheses of `C1_pairwise_min_distance` hold at this input
(cell size 7 ≈ 10/√2). -/
theorem C1_pairwise_min_distance_witness :
    (⟨20, 10⟩ : Point) ∈ GeneratePoints 10 ⟨100, 100⟩ [] [⟨10, 10⟩] MAX_INT
      (fun n => if n = 0 then ((10:ℤ), (0:ℤ)) else
        if n = 1 then ((-10:ℤ), (0:ℤ)) else ((1000:ℤ), (1000:ℤ))) 7 1 ∧
    (⟨0, 10⟩ : Point) ∈ GeneratePoints 10 ⟨100, 100⟩ [] [⟨10, 10⟩] MAX_INT
      (fun n => if n = 0 then ((10:ℤ), (0:ℤ)) else
        if n = 1 then ((-10:ℤ), (0:ℤ)) else ((1000:ℤ), (1000:ℤ))) 7 1 ∧
    (10:ℤ) ^ 2 ≤ distSq ⟨20, 10⟩ ⟨0, 10⟩ := by
  refine ⟨by decide, by decide, ?_⟩
  exact C1_pairwise_min_distance 10 ⟨100, 100⟩ [] [⟨10, 10⟩] MAX_INT
    (fun n => if n = 0 then ((10:ℤ), (0:ℤ)) else
      if n = 1 then ((-10:ℤ), (0:ℤ)) else ((1000:ℤ), (1000:ℤ))) 7 1
    (by decide) (by decide) (by decide) (by decide) (by decide) (by decide)
    (by decide) (fun hemp => absurd hemp (by decide))
    ⟨20, 10⟩ ⟨0, 10⟩ (by decide) (by decide) (by decide)

/-- **C2**: for every call with positive map dimensions, every returned
point `p` satisfies `0 ≤ p.X < Width` and `0 ≤ p.Y < Height`; the
randomly synthesized first point of the no-seed case is covered through
the spec's contract on the two `Range(0.4·dim, 0.6·dim)` draws (`hfx`,
`hfy`); no assumption on the seeds is needed, since seeds never enter the
output list. -/
theorem C2_output_within_bounds
    (minimumDistance : ℤ) (mapDimensions : Dimension2du)
    (excludedSections : List MapSection) (existingPoints : List Point)
    (maxNumberOfPoints : ℤ) (stream : ℕ → ℤ × ℤ) (cn cd : ℤ)
    (hw : 0 < mapDimensions.Width) (hh : 0 < mapDimensions.Height)
    (hfx : existingPoints = [] →
      Int.fdiv (2 * (mapDimensions.Width : ℤ)) 5 ≤ (stream 0).1 ∧
      (stream 0).1 ≤ Int.fdiv (3 * (mapDimensions.Width : ℤ)) 5)
    (hfy : existingPoints = [] →
      Int.fdiv (2 * (mapDimensions.Height : ℤ)) 5 ≤ (stream 0).2 ∧
      (stream 0).2 ≤ Int.fdiv (3 * (mapDimensions.Height : ℤ)) 5)
    (p : Point)
    (hp : p ∈ GeneratePoints minimumDistance mapDimensions excludedSections
      existingPoints maxNumberOfPoints stream cn cd) :
    0 ≤ p.X ∧ p.X < (mapDimensions.Width : ℤ) ∧
    0 ≤ p.Y ∧ p.Y < (mapDimensions.Height : ℤ) := by
  set P : GenParams :=
    ⟨minimumDistance, mapDimensions, maxNumberOfPoints, stream, cn, cd⟩ with hP
  have hfirst : existingPoints = [] →
      InsideRectangle ⟨(stream 0).1, (stream 0).2⟩ origin mapDimensions = true := by
    intro hemp
    have hx := firstPoint_coord_bounds (mapDimensions.Width : ℤ) (stream 0).1
      (by exact_mod_cast hw) (hfx hemp).1 (hfx hemp).2
    have hy := firstPoint_coord_bounds (mapDimensions.Height : ℤ) (stream 0).2
      (by exact_mod_cast hh) (hfy hemp).1 (hfy hemp).2
    rw [InsideRectangle_iff]
    simp only [origin]
    exact ⟨hx.1, by omega, hy.1, by omega⟩
  have hB := OutBounds_generationLoop P
    (GENERATION_FUEL mapDimensions existingPoints cn cd)
    (initState P existingPoints)
    (OutBounds_initState P existingPoints hfirst)
  have hp2 : p ∈ excludedSections.foldl (fun points sec => ExcludeSection points sec)
      (generationLoop P (GENERATION_FUEL mapDimensions existingPoints cn cd)
        (initState P existingPoints)).outputList := hp
  have hmem := (mem_excludeFoldl p excludedSections _ hp2).1
  have := (InsideRectangle_iff p origin mapDimensions).mp (hB p hmem)
  simp only [origin] at this
  exact ⟨this.1, by omega, this.2.2.1, by omega⟩

/-- Witness for C2: a no-seed run on a `100×100` map with `Range` draws
yielding `(50, 50)` returns exactly `[(50,50)]`, inside the map. -/
theorem C2_output_within_bounds_witness :
    (⟨50, 50⟩ : Point) ∈ GeneratePoints 10 ⟨100, 100⟩ [] [] MAX_INT
      (fun n => if n = 0 then ((50:ℤ), (50:ℤ)) else ((1000:ℤ), (1000:ℤ))) 7 1 ∧
    (0 ≤ (⟨50, 50⟩ : Point).X ∧ (⟨50, 50⟩ : Point).X < (100 : ℤ) ∧
     0 ≤ (⟨50, 50⟩ : Point).Y ∧ (⟨50, 50⟩ : Point).Y < (100 : ℤ)) := by
  refine ⟨by decide, ?_⟩
  exact C2_output_within_bounds 10 ⟨100, 100⟩ [] [] MAX_INT
    (fun n => if n = 0 then ((50:ℤ), (50:ℤ)) else ((1000:ℤ), (1000:ℤ))) 7 1
    (by decide) (by decide)
    (fun _ => by decide) (fun _ => by decide)
    ⟨50, 50⟩ (by decide)

/-- **C3** (code bug): the claim — and the function's own doc comment —
says that in capped mode (`maxNumberOfPoints < MAX_INT`) the front of the
process queue is never popped, so candidates are generated only around the
first element of `existingPoints`.  The code's pop guard is
`!maxNumberOfPoints < MAX_INT` (source line 148): `!` binds before `<`, so
the guard is always true (see `cppNot_lt_MAX_INT`) and the front is popped
on every iteration.  Concretely, with seeds `[(10,10), (90,90)]`, cap 5
and a stream whose draw 30 is `(-11, 0)`: after one outer iteration the
front is already the second seed, and the returned point `(79,90)` was
generated around `(90,90)` — it lies in the `[m, 2m]` annulus of `(90,90)`
(squared distance `121 ≤ 400`) and far outside that of `(10,10)` (squared
distance `11161 > 400`). -/
theorem C3_capped_mode_pops_front :
    cppNot 5 < MAX_INT ∧
    (generationStep ⟨10, ⟨100, 100⟩, 5,
        (fun n => if n = 30 then ((-11:ℤ), (0:ℤ)) else ((1000:ℤ), (1000:ℤ))), 7, 1⟩
      (initState ⟨10, ⟨100, 100⟩, 5,
        (fun n => if n = 30 then ((-11:ℤ), (0:ℤ)) else ((1000:ℤ), (1000:ℤ))), 7, 1⟩
        [⟨10, 10⟩, ⟨90, 90⟩])).processQueue = [⟨90, 90⟩] ∧
    GeneratePoints 10 ⟨100, 100⟩ [] [⟨10, 10⟩, ⟨90, 90⟩] 5
      (fun n => if n = 30 then ((-11:ℤ), (0:ℤ)) else ((1000:ℤ), (1000:ℤ))) 7 1 =
      [⟨79, 90⟩] ∧
    distSq ⟨79, 90⟩ ⟨90, 90⟩ ≤ (2 * 10) ^ 2 ∧
    ¬(distSq ⟨79, 90⟩ ⟨10, 10⟩ ≤ (2 * 10) ^ 2) := by
  refine ⟨by decide, by decide, by decide, by decide, by decide⟩

/-- **C4** (amended): when `existingPoints` is non-empty and all seeds lie
inside the map, (1) no returned point equals a seed; and (2) *provided the
seeds are pairwise at least `minimumDistance` apart* (so that no seed's
grid registration is overwritten by a later seed sharing its cell), every
returned point is at least `minimumDistance` from every seed.  Without the
pairwise condition part (2) fails: see `C4_counterexample`. -/
theorem C4_seed_exclusion
    (minimumDistance : ℤ) (mapDimensions : Dimension2du)
    (excludedSections : List MapSection) (existingPoints : List Point)
    (maxNumberOfPoints : ℤ) (stream : ℕ → ℤ × ℤ) (cn cd : ℤ)
    (hne : existingPoints ≠ [])
    (hm : 1 ≤ minimumDistance) (hcn : 0 < cn) (hcd : 0 < cd)
    (h1 : 2 * cn ^ 2 ≤ minimumDistance ^ 2 * cd ^ 2)
    (h2 : minimumDistance ^ 2 ≤ 2 * (Int.fdiv cn cd + 1) ^ 2)
    (h3 : minimumDistance * cd ≤ 2 * cn)
    (hseeds : ∀ s ∈ existingPoints, InsideRectangle s origin mapDimensions = true)
    (p : Point)
    (hp : p ∈ GeneratePoints minimumDistance mapDimensions excludedSections
      existingPoints maxNumberOfPoints stream cn cd)
    (s : Point) (hs : s ∈ existingPoints) :
    p ≠ s ∧
    (List.Pairwise (fun a b => minimumDistance ^ 2 ≤ distSq a b) existingPoints →
      minimumDistance ^ 2 ≤ distSq p s) := by
  set P : GenParams :=
    ⟨minimumDistance, mapDimensions, maxNumberOfPoints, stream, cn, cd⟩ with hP
  have H : Hyps P := ⟨hm, hcn, hcd, h1, h2, h3⟩
  have hfirst : existingPoints = [] →
      InsideRectangle ⟨(stream 0).1, (stream 0).2⟩ origin mapDimensions = true :=
    fun hemp => absurd hemp hne
  have I := Inv_generationLoop P existingPoints H
    (GENERATION_FUEL mapDimensions existingPoints cn cd)
    (initState P existingPoints)
    (Inv_initState P existingPoints hseeds hfirst)
  have hp2 : p ∈ excludedSections.foldl (fun points sec => ExcludeSection points sec)
      (generationLoop P (GENERATION_FUEL mapDimensions existingPoints cn cd)
        (initState P existingPoints)).outputList := hp
  have hmem := (mem_excludeFoldl p excludedSections _ hp2).1
  constructor
  · intro hps
    exact I.out_notin p hmem (hps ▸ hs)
  · intro hfar
    have J := InvFar_generationLoop P existingPoints H hseeds
      (GENERATION_FUEL mapDimensions existingPoints cn cd)
      (initState P existingPoints)
      (Inv_initState P existingPoints hseeds hfirst)
      (InvFar_initState P existingPoints H hseeds hfar)
    exact J.out_far p hmem s hs

/-- Witness for C4 (amended): in the C1 witness run the returned point
`(20,10)` differs from the only seed `(10,10)` and lies at squared
distance `100 ≥ 10²` from it. -/
theorem C4_seed_exclusion_witness :
    (⟨20, 10⟩ : Point) ≠ (⟨10, 10⟩ : Point) ∧
    (10:ℤ) ^ 2 ≤ distSq ⟨20, 10⟩ ⟨10, 10⟩ := by
  have h := C4_seed_exclusion 10 ⟨100, 100⟩ [] [⟨10, 10⟩] MAX_INT
    (fun n => if n = 0 then ((10:ℤ), (0:ℤ)) else
      if n = 1 then ((-10:ℤ), (0:ℤ)) else ((1000:ℤ), (1000:ℤ))) 7 1
    (by decide) (by decide) (by decide) (by decide) (by decide) (by decide)
    (by decide) (by decide)
    ⟨20, 10⟩ (by decide) ⟨10, 10⟩ (by decide)
  exact ⟨h.1, h.2 (by decide)⟩

/-- **C4** (counterexample to the claim as stated): the seeds `(0,0)` and
`(6,0)` are both inside the `100×100` map and `GeneratePoints`'s stated
preconditions hold, but the two seeds share acceleration cell `(0,0)`
(cell size 7), so loading `(6,0)` overwrites `(0,0)`'s registration.  The
candidate `(0,9)` — realizable by a real draw of radial distance ≈10.02
in `[10,20)` truncated to offset `(0,9)` — sees only `(6,0)` (distance
`√117 ≈ 10.8`) in its scan window and is accepted, yet its distance to
the seed `(0,0)` is only `9 < 10`.  (The same run arises for the float
cell size `10/√2 ≈ 7.07`, which puts all these points in the same cells.) -/
theorem C4_counterexample :
    (⟨0, 0⟩ : Point) ∈ ([⟨0, 0⟩, ⟨6, 0⟩] : List Point) ∧
    (∀ s ∈ ([⟨0, 0⟩, ⟨6, 0⟩] : List Point),
      InsideRectangle s origin ⟨100, 100⟩ = true) ∧
    (⟨0, 9⟩ : Point) ∈ GeneratePoints 10 ⟨100, 100⟩ [] [⟨0, 0⟩, ⟨6, 0⟩] MAX_INT
      (fun n => if n = 0 then ((0:ℤ), (9:ℤ)) else ((1000:ℤ), (1000:ℤ))) 7 1 ∧
    distSq ⟨0, 9⟩ ⟨0, 0⟩ < 10 ^ 2 := by
  refine ⟨by decide, by decide, by decide, by decide⟩

/-- **C5**: for every call to `GeneratePoints`, no returned point lies
inside any rectangle-shaped excluded section, where containment is
`offset.X ≤ p.X < offset.X + Width` (and analogously for `Y`) with
`offset = centerTile - dimensions/2` (integer halving of the unsigned
dimensions). -/
theorem C5_exclusion_zones
    (minimumDistance : ℤ) (mapDimensions : Dimension2du)
    (excludedSections : List MapSection) (existingPoints : List Point)
    (maxNumberOfPoints : ℤ) (stream : ℕ → ℤ × ℤ) (cn cd : ℤ)
    (p : Point)
    (hp : p ∈ GeneratePoints minimumDistance mapDimensions excludedSections
      existingPoints maxNumberOfPoints stream cn cd)
    (sec : MapSection) (hsec : sec ∈ excludedSections)
    (hshape : sec.shape = Shape.eRectangle) :
    InsideRectangle p (sectionOffset sec) sec.dimensions = false := by
  set P : GenParams :=
    ⟨minimumDistance, mapDimensions, maxNumberOfPoints, stream, cn, cd⟩ with hP
  have hp2 : p ∈ excludedSections.foldl (fun points sec => ExcludeSection points sec)
      (generationLoop P (GENERATION_FUEL mapDimensions existingPoints cn cd)
        (initState P existingPoints)).outputList := hp
  have h := (mem_excludeFoldl p excludedSections _ hp2).2 sec hsec
  simp only [InsideSection, hshape] at h
  exact h

/-- Witness for C5: a run returning `(20,10)` and `(0,10)` with a
rectangle section centered at `(50,50)` of dimensions `10×10`; the
returned point `(20,10)` is outside the section. -/
theorem C5_exclusion_zones_witness :
    (⟨20, 10⟩ : Point) ∈ GeneratePoints 10 ⟨100, 100⟩
      [⟨Shape.eRectangle, ⟨50, 50⟩, ⟨10, 10⟩⟩] [⟨10, 10⟩] MAX_INT
      (fun n => if n = 0 then ((10:ℤ), (0:ℤ)) else
        if n = 1 then ((-10:ℤ), (0:ℤ)) else ((1000:ℤ), (1000:ℤ))) 7 1 ∧
    InsideRectangle ⟨20, 10⟩ (sectionOffset ⟨Shape.eRectangle, ⟨50, 50⟩, ⟨10, 10⟩⟩)
      ⟨10, 10⟩ = false := by
  refine ⟨by decide, ?_⟩
  exact C5_exclusion_zones 10 ⟨100, 100⟩
    [⟨Shape.eRectangle, ⟨50, 50⟩, ⟨10, 10⟩⟩] [⟨10, 10⟩] MAX_INT
    (fun n => if n = 0 then ((10:ℤ), (0:ℤ)) else
      if n = 1 then ((-10:ℤ), (0:ℤ)) else ((1000:ℤ), (1000:ℤ))) 7 1
    ⟨20, 10⟩ (by decide)
    ⟨Shape.eRectangle, ⟨50, 50⟩, ⟨10, 10⟩⟩ (by decide) (by decide)

/-- **C6**: an ellipse-shaped excluded section removes no points
(`ExcludeSection` leaves any list unchanged, because `InsideSection`
reports the unsupported shape and returns `false`), and its presence does
not abort or alter generation: the returned list equals the one obtained
with that section omitted. -/
theorem C6_ellipse_section_noop
    (minimumDistance : ℤ) (mapDimensions : Dimension2du)
    (existingPoints : List Point) (maxNumberOfPoints : ℤ)
    (stream : ℕ → ℤ × ℤ) (cn cd : ℤ)
    (pre post : List MapSection) (sec : MapSection)
    (hshape : sec.shape = Shape.eEllipse) (l : List Point) :
    ExcludeSection l sec = l ∧
    GeneratePoints minimumDistance mapDimensions (pre ++ sec :: post)
      existingPoints maxNumberOfPoints stream cn cd =
    GeneratePoints minimumDistance mapDimensions (pre ++ post)
      existingPoints maxNumberOfPoints stream cn cd := by
  refine ⟨ExcludeSection_ellipse sec hshape l, ?_⟩
  set P : GenParams :=
    ⟨minimumDistance, mapDimensions, maxNumberOfPoints, stream, cn, cd⟩ with hP
  show (pre ++ sec :: post).foldl (fun points s => ExcludeSection points s)
      (generationLoop P (GENERATION_FUEL mapDimensions existingPoints cn cd)
        (initState P existingPoints)).outputList =
    (pre ++ post).foldl (fun points s => ExcludeSection points s)
      (generationLoop P (GENERATION_FUEL mapDimensions existingPoints cn cd)
        (initState P existingPoints)).outputList
  rw [List.foldl_append, List.foldl_append, List.foldl_cons,
    ExcludeSection_ellipse sec hshape]

/-- Witness for C6: concrete instance with one ellipse section between two
other sections. -/
theorem C6_ellipse_section_noop_witness :
    ExcludeSection [⟨3, 4⟩] ⟨Shape.eEllipse, ⟨50, 50⟩, ⟨10, 10⟩⟩ = [⟨3, 4⟩] ∧
    GeneratePoints 10 ⟨100, 100⟩
      ([⟨Shape.eRectangle, ⟨50, 50⟩, ⟨10, 10⟩⟩] ++
        ⟨Shape.eEllipse, ⟨50, 50⟩, ⟨10, 10⟩⟩ :: [⟨Shape.eRectangle, ⟨90, 90⟩, ⟨4, 4⟩⟩])
      [⟨10, 10⟩] MAX_INT
      (fun n => if n = 0 then ((10:ℤ), (0:ℤ)) else ((1000:ℤ), (1000:ℤ))) 7 1 =
    GeneratePoints 10 ⟨100, 100⟩
      ([⟨Shape.eRectangle, ⟨50, 50⟩, ⟨10, 10⟩⟩] ++ [⟨Shape.eRectangle, ⟨90, 90⟩, ⟨4, 4⟩⟩])
      [⟨10, 10⟩] MAX_INT
      (fun n => if n = 0 then ((10:ℤ), (0:ℤ)) else ((1000:ℤ), (1000:ℤ))) 7 1 :=
  C6_ellipse_section_noop 10 ⟨100, 100⟩ [⟨10, 10⟩] MAX_INT
    (fun n => if n = 0 then ((10:ℤ), (0:ℤ)) else ((1000:ℤ), (1000:ℤ))) 7 1
    [⟨Shape.eRectangle, ⟨50, 50⟩, ⟨10, 10⟩⟩] [⟨Shape.eRectangle, ⟨90, 90⟩, ⟨4, 4⟩⟩]
    ⟨Shape.eEllipse, ⟨50, 50⟩, ⟨10, 10⟩⟩ rfl [⟨3, 4⟩]

/-- **C7** (amended): `GeneratePoints` performs no argument validation at
entry.  Whenever `existingPoints` is non-empty, every seed — valid or not —
is loaded into the process queue (and written to the grid) and generation
proceeds; there is no `InvalidArgument` report and no abort. -/
theorem C7_no_entry_validation
    (minimumDistance : ℤ) (mapDimensions : Dimension2du)
    (maxNumberOfPoints : ℤ) (stream : ℕ → ℤ × ℤ) (cn cd : ℤ)
    (existingPoints : List Point) (hne : existingPoints ≠ []) :
    (initState ⟨minimumDistance, mapDimensions, maxNumberOfPoints, stream, cn, cd⟩
      existingPoints).processQueue = existingPoints ∧
    (initState ⟨minimumDistance, mapDimensions, maxNumberOfPoints, stream, cn, cd⟩
      existingPoints).outputList = [] := by
  unfold initState
  rw [if_neg hne]
  exact ⟨rfl, rfl⟩

/-- Witness for the amended C7: with the out-of-bounds seed `(-1,-1)` the
entry code still enqueues it unfiltered. -/
theorem C7_no_entry_validation_witness :
    (initState ⟨10, ⟨100, 100⟩, MAX_INT,
      (fun n => if n = 0 then ((11:ℤ), (11:ℤ)) else ((1000:ℤ), (1000:ℤ))), 7, 1⟩
      [⟨-1, -1⟩]).processQueue = [⟨-1, -1⟩] ∧
    (initState ⟨10, ⟨100, 100⟩, MAX_INT,
      (fun n => if n = 0 then ((11:ℤ), (11:ℤ)) else ((1000:ℤ), (1000:ℤ))), 7, 1⟩
      [⟨-1, -1⟩]).outputList = [] :=
  C7_no_entry_validation 10 ⟨100, 100⟩ MAX_INT
    (fun n => if n = 0 then ((11:ℤ), (11:ℤ)) else ((1000:ℤ), (1000:ℤ))) 7 1
    [⟨-1, -1⟩] (by decide)

/-- **C7** (counterexample to the claim as stated): the seed `(-1,-1)` is
outside the `100×100` map bounds, yet the call does not report any
failure: the seed is loaded (its cell even receives the sentinel value
`(-1,-1)` itself), the grid is built, the generation loop runs, and the
call returns the normally generated list `[(10,10)]` — so no
`InvalidArgument` is reported to the caller before grid allocation, and
caller-visible generation work is performed on invalid input. -/
theorem C7_counterexample :
    InsideRectangle ⟨-1, -1⟩ origin ⟨100, 100⟩ = false ∧
    GeneratePoints 10 ⟨100, 100⟩ [] [⟨-1, -1⟩] MAX_INT
      (fun n => if n = 0 then ((11:ℤ), (11:ℤ)) else ((1000:ℤ), (1000:ℤ))) 7 1 =
      [⟨10, 10⟩] := by
  refine ⟨by decide, by decide⟩

/-- **C8**: the generation loop terminates for every behavior of the
random source: after `GENERATION_FUEL` outer iterations the loop condition
is false — the queue has drained or the accepted-point counter has reached
the cap.  (The measure: each outer iteration pops exactly one queue entry,
and each acceptance that lengthens the queue permanently fills one empty
in-dimension grid cell, of which there are finitely many.) -/
theorem C8_loop_terminates
    (minimumDistance : ℤ) (mapDimensions : Dimension2du)
    (existingPoints : List Point) (maxNumberOfPoints : ℤ)
    (stream : ℕ → ℤ × ℤ) (cn cd : ℤ)
    (hm : 1 ≤ minimumDistance) (hcn : 0 < cn) (hcd : 0 < cd)
    (h1 : 2 * cn ^ 2 ≤ minimumDistance ^ 2 * cd ^ 2)
    (h2 : minimumDistance ^ 2 ≤ 2 * (Int.fdiv cn cd + 1) ^ 2)
    (h3 : minimumDistance * cd ≤ 2 * cn)
    (hseeds : ∀ s ∈ existingPoints, InsideRectangle s origin mapDimensions = true)
    (hfirst : existingPoints = [] →
      InsideRectangle ⟨(stream 0).1, (stream 0).2⟩ origin mapDimensions = true) :
    loopDone ⟨minimumDistance, mapDimensions, maxNumberOfPoints, stream, cn, cd⟩
      (generationLoop ⟨minimumDistance, mapDimensions, maxNumberOfPoints, stream, cn, cd⟩
        (GENERATION_FUEL mapDimensions existingPoints cn cd)
        (initState ⟨minimumDistance, mapDimensions, maxNumberOfPoints, stream, cn, cd⟩
          existingPoints)) := by
  set P : GenParams :=
    ⟨minimumDistance, mapDimensions, maxNumberOfPoints, stream, cn, cd⟩ with hP
  have H : Hyps P := ⟨hm, hcn, hcd, h1, h2, h3⟩
  exact generationLoop_done P existingPoints H
    (GENERATION_FUEL mapDimensions existingPoints cn cd)
    (initState P existingPoints)
    (Inv_initState P existingPoints hseeds hfirst)
    (loopMeasure_initState_le P existingPoints)

/-- Witness for C8: a concrete run on a `20×20` map with one seed and a
stream whose candidates all fall outside the map; the loop drains after
one productive iteration, within the computed fuel. -/
theorem C8_loop_terminates_witness :
    loopDone ⟨10, ⟨20, 20⟩, MAX_INT, (fun _ => ((1000:ℤ), (1000:ℤ))), 7, 1⟩
      (generationLoop ⟨10, ⟨20, 20⟩, MAX_INT, (fun _ => ((1000:ℤ), (1000:ℤ))), 7, 1⟩
        (GENERATION_FUEL ⟨20, 20⟩ [⟨10, 10⟩] 7 1)
        (initState ⟨10, ⟨20, 20⟩, MAX_INT, (fun _ => ((1000:ℤ), (1000:ℤ))), 7, 1⟩
          [⟨10, 10⟩])) :=
  C8_loop_terminates 10 ⟨20, 20⟩ [⟨10, 10⟩] MAX_INT
    (fun _ => ((1000:ℤ), (1000:ℤ))) 7 1
    (by decide) (by decide) (by decide) (by decide) (by decide) (by decide)
    (by decide) (fun hemp => absurd hemp (by decide))

/-- **C9**: throughout a call (after any number `n` of outer-loop
iterations from the initial state) with in-bounds seed points, every
acceleration-grid cell holds either the sentinel `(-1,-1)` or a stored
point that lies in `[0, Width) × [0, Height)` — and such a point is never
equal to the sentinel, so `InNeighborhood`'s sentinel test never mistakes
a stored point for an empty cell. -/
theorem C9_sentinel_never_collides
    (minimumDistance : ℤ) (mapDimensions : Dimension2du)
    (existingPoints : List Point) (maxNumberOfPoints : ℤ)
    (stream : ℕ → ℤ × ℤ) (cn cd : ℤ)
    (hm : 1 ≤ minimumDistance) (hcn : 0 < cn) (hcd : 0 < cd)
    (h1 : 2 * cn ^ 2 ≤ minimumDistance ^ 2 * cd ^ 2)
    (h2 : minimumDistance ^ 2 ≤ 2 * (Int.fdiv cn cd + 1) ^ 2)
    (h3 : minimumDistance * cd ≤ 2 * cn)
    (hseeds : ∀ s ∈ existingPoints, InsideRectangle s origin mapDimensions = true)
    (hfirst : existingPoints = [] →
      InsideRectangle ⟨(stream 0).1, (stream 0).2⟩ origin mapDimensions = true)
    (n : ℕ) (x y : ℤ) :
    (generationLoop ⟨minimumDistance, mapDimensions, maxNumberOfPoints, stream, cn, cd⟩
        n (initState ⟨minimumDistance, mapDimensions, maxNumberOfPoints, stream, cn, cd⟩
          existingPoints)).pointGrid.grid x y = sentinel ∨
    (InsideRectangle ((generationLoop
        ⟨minimumDistance, mapDimensions, maxNumberOfPoints, stream, cn, cd⟩
        n (initState ⟨minimumDistance, mapDimensions, maxNumberOfPoints, stream, cn, cd⟩
          existingPoints)).pointGrid.grid x y) origin mapDimensions = true ∧
     (generationLoop ⟨minimumDistance, mapDimensions, maxNumberOfPoints, stream, cn, cd⟩
        n (initState ⟨minimumDistance, mapDimensions, maxNumberOfPoints, stream, cn, cd⟩
          existingPoints)).pointGrid.grid x y ≠ sentinel) := by
  set P : GenParams :=
    ⟨minimumDistance, mapDimensions, maxNumberOfPoints, stream, cn, cd⟩ with hP
  have H : Hyps P := ⟨hm, hcn, hcd, h1, h2, h3⟩
  have I := Inv_generationLoop P existingPoints H n (initState P existingPoints)
    (Inv_initState P existingPoints hseeds hfirst)
  rcases I.grid_ok x y with hsent | ⟨hb, _⟩
  · exact Or.inl hsent
  · exact Or.inr ⟨hb, inBounds_ne_sentinel _ mapDimensions hb⟩

/-- Witness for C9: the concrete C1 run after two outer iterations; the
cell `(1,1)` (the seed's cell) is non-sentinel and in-bounds, and the cell
`(5,5)` is the sentinel. -/
theorem C9_sentinel_never_collides_witness :
    (generationLoop ⟨10, ⟨100, 100⟩, MAX_INT,
        (fun n => if n = 0 then ((10:ℤ), (0:ℤ)) else ((1000:ℤ), (1000:ℤ))), 7, 1⟩
        2 (initState ⟨10, ⟨100, 100⟩, MAX_INT,
          (fun n => if n = 0 then ((10:ℤ), (0:ℤ)) else ((1000:ℤ), (1000:ℤ))), 7, 1⟩
          [⟨10, 10⟩])).pointGrid.grid 1 1 = sentinel ∨
    (InsideRectangle ((generationLoop ⟨10, ⟨100, 100⟩, MAX_INT,
        (fun n => if n = 0 then ((10:ℤ), (0:ℤ)) else ((1000:ℤ), (1000:ℤ))), 7, 1⟩
        2 (initState ⟨10, ⟨100, 100⟩, MAX_INT,
          (fun n => if n = 0 then ((10:ℤ), (0:ℤ)) else ((1000:ℤ), (1000:ℤ))), 7, 1⟩
          [⟨10, 10⟩])).pointGrid.grid 1 1) origin ⟨100, 100⟩ = true ∧
     (generationLoop ⟨10, ⟨100, 100⟩, MAX_INT,
        (fun n => if n = 0 then ((10:ℤ), (0:ℤ)) else ((1000:ℤ), (1000:ℤ))), 7, 1⟩
        2 (initState ⟨10, ⟨100, 100⟩, MAX_INT,
          (fun n => if n = 0 then ((10:ℤ), (0:ℤ)) else ((1000:ℤ), (1000:ℤ))), 7, 1⟩
          [⟨10, 10⟩])).pointGrid.grid 1 1 ≠ sentinel) :=
  C9_sentinel_never_collides 10 ⟨100, 100⟩ [⟨10, 10⟩] MAX_INT
    (fun n => if n = 0 then ((10:ℤ), (0:ℤ)) else ((1000:ℤ), (1000:ℤ))) 7 1
    (by decide) (by decide) (by decide) (by decide) (by decide) (by decide)
    (by decide) (fun hemp => absurd hemp (by decide)) 2 1 1

/-- **C10** (code bug): the grid storage is allocated as `pointGridHeight`
rows of length `pointGridWidth` (source lines 56-64), but every access is
`grid[tile.X][tile.Y]`.  On the `100×10` map with cell size 7 the grid is
2 rows of 15; the in-bounds seed `(50,5)` is written (source line 105) at
tile `(7,0)`, i.e. row index 7 of a 2-row allocation — outside the
allocated storage.  (The embedding's total-function grid records the
write; `accessWithinAllocation` captures the real allocated shape.) -/
theorem C10_access_out_of_allocation :
    InsideRectangle ⟨50, 5⟩ origin ⟨100, 10⟩ = true ∧
    PointToGridTile ⟨50, 5⟩ 7 1 = ⟨7, 0⟩ ∧
    pointGridHeightCells ⟨100, 10⟩ 7 1 = 2 ∧
    pointGridWidthCells ⟨100, 10⟩ 7 1 = 15 ∧
    (initState ⟨10, ⟨100, 10⟩, MAX_INT, (fun _ => ((1000:ℤ), (1000:ℤ))), 7, 1⟩
      [⟨50, 5⟩]).pointGrid.grid 7 0 = ⟨50, 5⟩ ∧
    ¬ accessWithinAllocation ⟨100, 10⟩ 7 1 (PointToGridTile ⟨50, 5⟩ 7 1) := by
  refine ⟨by decide, by decide, by decide, by decide, by decide, by decide⟩

end PoissonDisc
